import Mathlib

/-!
# Verification of the attendance punch state machine

This development gives a shallow embedding of the attendance-recording
handlers of the repository (an attendance kiosk built on Next.js +
MongoDB/mongoose) and proves or refutes the specification's claims about
them.

The repository contains several incremental rewrites of the same
`pages/api/submit-attendance.js` handler.  We embed each variant that the
claims reference:

* `handlerV1` — the first variant in `pages/api/submit-attendance.js`
  (lines 15–109): `findOne` then `save`, punch-out with **no cooldown
  check**.
* the V2 step machine (`v2Step`) — the second variant (lines 132–241):
  `findOne`-then-`save` creation, a cooldown check (`diffSec <
  MIN_INTERVAL`), a conditional `findOneAndUpdate` punch-out, and a
  race re-fetch.
* the V3 step machine (`v3Step`) — the third variant (lines 256–404):
  a single atomic `$setOnInsert` upsert for creation, then the same
  cooldown/conditional-punch-out/re-fetch logic.
* `handlerP4` — the `moment-timezone` variant in `src/unnamed/part_004`:
  no user-existence check, a "repair" branch for records missing
  `punchInAt`, and a fresh clock read for every timestamp.

Conventions of the embedding:

* Instants are natural numbers counting whole seconds; `dayOf t = t /
  86400` models the `YYYY-MM-DD` day-key format and `todOf t = t % 86400`
  models the `HH:mm:ss` time-of-day format (the source stores these as
  strings; second granularity is exactly what those formats carry).
* The MongoDB collection is a `List` of records; a document's `_id` is
  its (stable, deletion-free) index in the list.  `findOne` is
  `List.find?` (first match), `save` of a new document appends, updates
  replace in place at an index.
* Each handler variant reads the clock as many times as the source does
  (`dayjs()` / `moment()` calls): V1 and V2 read twice per request
  (`tDate` for the day key, `tNow` for the written times), V3 reads once,
  and `handlerP4` consumes successive entries of an explicit clock list.
* Concurrency is modelled by small-step machines: each step performs one
  atomic store operation (the only suspension points in the source are
  the awaited MongoDB calls) followed by the purely local computation up
  to the next store operation.  A schedule is a list of call indices; an
  execution folds steps over the schedule.
-/

/-- Day key of an instant (seconds since epoch): models `format("YYYY-MM-DD")`. -/
def dayOf (t : Nat) : Nat := t / 86400

/-- Time-of-day of an instant: models `format("HH:mm:ss")`. -/
def todOf (t : Nat) : Nat := t % 86400

/-- A registered user (`models/User.js`): the fields the attendance
handlers read. -/
structure UserRec where
  userId : String
  name : String
  role : String
deriving DecidableEq, Repr

/-- An attendance document (`models/Attendance.js`): `date` is the day
key, `punchIn`/`punchOut` are times of day, `recordedAt` an instant. -/
structure AttRec where
  userId : String
  name : String
  role : String
  date : Nat
  punchIn : Option Nat := none
  punchOut : Option Nat := none
  recordedAt : Nat := 0
deriving DecidableEq, Repr

/-- The JSON payload a handler responds with (union of the fields the
embedded variants emit; a field the source omits is `none`). -/
structure Response where
  code : Nat
  message : String
  status : Option String := none
  punchIn : Option Nat := none
  punchOut : Option Nat := none
  recordedAt : Option Nat := none
  secondsSincePunchIn : Option Int := none
deriving DecidableEq, Repr

/-- Models `User.findOne({ userId })`. -/
def findUser (users : List UserRec) (uid : String) : Option UserRec :=
  users.find? fun u => u.userId = uid

/-- Models `Attendance.findOne({ userId, date })` — first matching document. -/
def findAtt (store : List AttRec) (uid : String) (d : Nat) : Option AttRec :=
  store.find? fun r => r.userId = uid ∧ r.date = d

/-- Worker for `findWithIdx`: position-tracking first-match search. -/
def findWithIdxAux {α : Type} (p : α → Bool) :
    List α → Nat → Option (Nat × α)
  | [], _ => none
  | r :: rest, i =>
    if p r then some (i, r) else findWithIdxAux p rest (i + 1)

/-- First element satisfying `p` together with its index (the `_id` that
later `findOneAndUpdate`/`findById` calls filter on). -/
def findWithIdx {α : Type} (p : α → Bool) (l : List α) : Option (Nat × α) :=
  findWithIdxAux p l 0

/-- Models `Attendance.findOne({ userId, date })` together with the index
of the returned document. -/
def findAttWithIdx (store : List AttRec) (uid : String) (d : Nat) :
    Option (Nat × AttRec) :=
  findWithIdx (fun r => r.userId = uid ∧ r.date = d) store

/-- Models `Attendance.findById(_id)` — lookup by index. -/
def readById (store : List AttRec) (idx : Nat) : Option AttRec :=
  store[idx]?

/-! ## V1: `pages/api/submit-attendance.js`, first variant (lines 15–109)

`findOne` then `new Attendance(...).save()`; the punch-out branch has no
cooldown check.  The source reads the clock twice: `today` comes from the
`dayjs()` call on line 44 (`tDate`) and `nowIst` from the call on line 52
(`tNow`).  Sequential semantics (one request at a time). -/

def handlerV1 (users : List UserRec) (uid : String) (tDate tNow : Nat)
    (store : List AttRec) : List AttRec × Response :=
  -- `if (!userId)`: the empty string is falsy
  if uid = "" then
    (store, { code := 400, message := "Missing userId" })
  else
    match findUser users uid with
    | none => (store, { code := 404, message := "User not found" })
    | some user =>
      let today := dayOf tDate
      match findAttWithIdx store uid today with
      | none =>
        -- Punch in: new Attendance({...}).save()
        let rec0 : AttRec :=
          { userId := uid, name := user.name, role := user.role,
            date := today, punchIn := some (todOf tNow), punchOut := none,
            recordedAt := tNow }
        (store ++ [rec0],
         { code := 200, message := "Punched In Successfully",
           status := some "Punched In", punchIn := rec0.punchIn,
           recordedAt := some rec0.recordedAt })
      | some (idx, record) =>
        if record.punchIn.isSome ∧ record.punchOut = none then
          -- Punch out: unconditional record.save()
          let record' := { record with punchOut := some (todOf tNow),
                                       recordedAt := tNow }
          (store.set idx record',
           { code := 200, message := "Punched Out Successfully",
             status := some "Punched Out", punchIn := record'.punchIn,
             punchOut := record'.punchOut,
             recordedAt := some record'.recordedAt })
        else
          (store,
           { code := 200, message := "Already Punched Out",
             status := some "Punched Out", punchIn := record.punchIn,
             punchOut := record.punchOut,
             recordedAt := some record.recordedAt })

/-! ## V2: `pages/api/submit-attendance.js`, second variant (lines 132–241)

`findOne`-then-`save` creation, cooldown check `diffSec < MIN_INTERVAL`,
conditional punch-out
`findOneAndUpdate({_id, punchOut: {$exists: false}}, {$set: {punchOut}})`,
and a re-fetch when the conditional update did not apply.

The source reads the clock twice: `today` from the `dayjs()` call on
line 151 (`tDate`) and `now`/`nowStr` from the call on line 152 (`tNow`).

We embed it as a small-step machine: one step per awaited store
operation. -/

structure V2Call where
  uid : String
  tDate : Nat
  tNow : Nat
deriving DecidableEq, Repr

/-- V2 punch-in response (line 170). -/
def punchInRespV2 (pIn : Nat) : Response :=
  { code := 200, message := "Punched In Successfully",
    status := some "Punched In", punchIn := some pIn }

/-- V2 too-soon response (line 186). -/
def tooSoonRespV2 (pIn : Option Nat) (diffSec minI : Int) : Response :=
  { code := 200,
    message := s!"Duplicate/too-fast: already punched in {diffSec}s ago. Minimum interval {minI}s.",
    status := some "Already Punched In (recent)", punchIn := pIn,
    secondsSincePunchIn := some diffSec }

/-- V2 successful punch-out response (line 202). -/
def outSuccessRespV2 (pIn pOut : Option Nat) : Response :=
  { code := 200, message := "Punched Out Successfully",
    status := some "Punched Out", punchIn := pIn, punchOut := pOut }

/-- V2 race-lost punch-out response (line 213). -/
def byOtherRespV2 (pIn pOut : Option Nat) : Response :=
  { code := 200, message := "Punched Out (by another request)",
    status := some "Punched Out", punchIn := pIn, punchOut := pOut }

/-- V2 already-punched-out response (line 227). -/
def alreadyOutRespV2 (pIn pOut : Option Nat) : Response :=
  { code := 200, message := "Already Punched Out",
    status := some "Punched Out", punchIn := pIn, punchOut := pOut }

/-- V2 fallback when the conditional update failed and the re-fetch still
shows no punch-out (line 222). -/
def fail500RespV2 : Response :=
  { code := 500, message := "Could not set punchOut - try again" }

inductive V2Phase where
  | start
  | needCreate (user : UserRec)
  | needCond (idx : Nat)
  | needRead (idx : Nat)
  | done (resp : Response)
deriving DecidableEq, Repr

/-- Models `Attendance.findOneAndUpdate({_id, punchOut: {$exists: false}},
{$set: {punchOut}}, {new: true})`: sets `punchOut` only if it is still
absent, returning the post-update document, else `none`. -/
def condPunchOutV2 (store : List AttRec) (idx : Nat) (pOut : Nat) :
    List AttRec × Option AttRec :=
  match store[idx]? with
  | some r =>
    if r.punchOut = none then
      let r' := { r with punchOut := some pOut }
      (store.set idx r', some r')
    else (store, none)
  | none => (store, none)

def v2Step (minI : Int) (users : List UserRec) (c : V2Call)
    (store : List AttRec) : V2Phase → List AttRec × V2Phase
  | .start =>
    if c.uid = "" then
      (store, .done { code := 400, message := "Missing or invalid userId" })
    else
      match findUser users c.uid with
      | none => (store, .done { code := 404, message := "User not found" })
      | some user =>
        let today := dayOf c.tDate
        match findAttWithIdx store c.uid today with
        | none => (store, .needCreate user)
        | some (idx, record) =>
          if record.punchIn.isSome ∧ record.punchOut = none then
            let p := record.punchIn.getD 0
            let diffSec : Int := (c.tNow : Int) - (record.date * 86400 + p)
            if diffSec < minI then
              (store, .done (tooSoonRespV2 record.punchIn diffSec minI))
            else
              (store, .needCond idx)
          else if record.punchIn.isSome ∧ record.punchOut.isSome then
            (store, .done (alreadyOutRespV2 record.punchIn record.punchOut))
          else
            (store, .done { code := 400, message := "Invalid attendance state" })
  | .needCreate user =>
    let rec0 : AttRec :=
      { userId := c.uid, name := user.name, role := user.role,
        date := dayOf c.tDate, punchIn := some (todOf c.tNow),
        punchOut := none, recordedAt := c.tNow }
    (store ++ [rec0], .done (punchInRespV2 (todOf c.tNow)))
  | .needCond idx =>
    match condPunchOutV2 store idx (todOf c.tNow) with
    | (store', some u) =>
      if u.punchOut.isSome then
        (store', .done (outSuccessRespV2 u.punchIn u.punchOut))
      else
        (store', .needRead idx)
    | (store', none) => (store', .needRead idx)
  | .needRead idx =>
    match readById store idx with
    | some latest =>
      if latest.punchOut.isSome then
        (store, .done (byOtherRespV2 latest.punchIn latest.punchOut))
      else
        (store, .done fail500RespV2)
    | none =>
      (store, .done fail500RespV2)
  | .done r => (store, .done r)

/-! ### Generic schedule execution -/

structure MState (Ph : Type) where
  store : List AttRec
  phases : List Ph
deriving DecidableEq, Repr

/-- Fold a step function over a schedule (a list of call indices).  An
index out of range, or a call that is already `done`, is a no-op step. -/
def runSched {Ph : Type} (step : Nat → List AttRec → Ph → List AttRec × Ph) :
    List Nat → MState Ph → MState Ph
  | [], s => s
  | i :: sched, s =>
    match s.phases[i]? with
    | some ph =>
      let p := step i s.store ph
      runSched step sched ⟨p.1, s.phases.set i p.2⟩
    | none => runSched step sched s

/-- One scheduled execution of the V2 handler over a list of concurrent
calls, starting from `store0`. -/
def v2Exec (minI : Int) (users : List UserRec) (calls : List V2Call)
    (store0 : List AttRec) (sched : List Nat) : MState V2Phase :=
  runSched
    (fun i store ph =>
      match calls[i]? with
      | some c => v2Step minI users c store ph
      | none => (store, ph))
    sched ⟨store0, List.replicate calls.length .start⟩

/-- Run one V2 request to completion in isolation (sequential
semantics); a V2 request performs at most three store operations. -/
def v2Solo (minI : Int) (users : List UserRec) (c : V2Call)
    (store : List AttRec) : List AttRec × Response :=
  match v2Step minI users c store .start with
  | (s1, .done r) => (s1, r)
  | (s1, p1) =>
    match v2Step minI users c s1 p1 with
    | (s2, .done r) => (s2, r)
    | (s2, p2) =>
      match v2Step minI users c s2 p2 with
      | (s3, .done r) => (s3, r)
      | (s3, _) => (s3, { code := 0, message := "" })

/-- Sequential run of a list of V2 requests. -/
def runV2Seq (minI : Int) (users : List UserRec) :
    List V2Call → List AttRec → List AttRec × List Response
  | [], store => (store, [])
  | c :: cs, store =>
    let p := v2Solo minI users c store
    let q := runV2Seq minI users cs p.1
    (q.1, p.2 :: q.2)

/-! ## V3: `pages/api/submit-attendance.js`, third variant (lines 256–404)

Creation is a single atomic native
`collection.findOneAndUpdate(filter, {$setOnInsert: {...}}, {upsert:
true, returnDocument: 'after'})`; the punch-out is the conditional
`findOneAndUpdate({_id, $or: [{punchOut: {$exists: false}}, {punchOut:
null}]}, {$set: {punchOut, recordedAt}})` with a re-fetch on failure.

The source reads the clock once (`nowIst`, line 286) and derives
`today`, `nowTime` and `recordedAt` from that single read, so a `V3Call`
carries a single instant `t`. -/

structure V3Call where
  uid : String
  t : Nat
deriving DecidableEq, Repr

inductive V3Phase where
  | start
  | needCond (idx : Nat)
  | needRead (idx : Nat)
  | done (resp : Response)
deriving DecidableEq, Repr

/-- V3's atomic upsert: returns the updated store, the index and value of
the post-operation document, and `lastErrorObject.upserted` (whether this
call inserted). -/
def upsertV3 (store : List AttRec) (uid : String) (user : UserRec)
    (t : Nat) : List AttRec × (Nat × AttRec) × Bool :=
  match findAttWithIdx store uid (dayOf t) with
  | some (idx, r) => (store, (idx, r), false)
  | none =>
    let r : AttRec :=
      { userId := uid, name := user.name, role := user.role,
        date := dayOf t, punchIn := some (todOf t), punchOut := none,
        recordedAt := t }
    (store ++ [r], (store.length, r), true)

/-- V3's conditional punch-out: sets `punchOut` and `recordedAt` only if
`punchOut` is still absent/null, returning the post-update document. -/
def condPunchOutV3 (store : List AttRec) (idx : Nat) (t : Nat) :
    List AttRec × Option AttRec :=
  match store[idx]? with
  | some r =>
    if r.punchOut = none then
      let r' := { r with punchOut := some (todOf t), recordedAt := t }
      (store.set idx r', some r')
    else (store, none)
  | none => (store, none)

/-- V3 punch-in response (line 313). -/
def punchInRespV3 (doc : AttRec) : Response :=
  { code := 200, message := "Punched In Successfully",
    status := some "Punched In", punchIn := doc.punchIn,
    recordedAt := some doc.recordedAt }

/-- V3 already-punched-out response (line 331). -/
def alreadyOutRespV3 (doc : AttRec) : Response :=
  { code := 200, message := "Already Punched Out",
    status := some "Punched Out", punchIn := doc.punchIn,
    punchOut := doc.punchOut, recordedAt := some doc.recordedAt }

/-- V3 successful punch-out response (line 373). -/
def outSuccessRespV3 (doc : AttRec) : Response :=
  { code := 200, message := "Punched Out Successfully",
    status := some "Punched Out", punchIn := doc.punchIn,
    punchOut := doc.punchOut, recordedAt := some doc.recordedAt }

/-- V3 race-lost punch-out response (line 385). -/
def byOtherRespV3 (doc : AttRec) : Response :=
  { code := 200, message := "Punched Out (by another request)",
    status := some "Punched Out", punchIn := doc.punchIn,
    punchOut := doc.punchOut, recordedAt := some doc.recordedAt }

def v3Step (minI : Int) (users : List UserRec) (c : V3Call)
    (store : List AttRec) : V3Phase → List AttRec × V3Phase
  | .start =>
    if c.uid = "" then
      (store, .done { code := 400, message := "Missing or invalid userId" })
    else
      match findUser users c.uid with
      | none => (store, .done { code := 404, message := "User not found" })
      | some user =>
        match upsertV3 store c.uid user c.t with
        | (store', (idx, doc), upserted) =>
          if upserted then
            (store', .done (punchInRespV3 doc))
          else
            -- the defensive `if (!record)` 500 (line 326) cannot fire in
            -- the embedding: the upsert always yields a document
            if doc.punchIn.isSome ∧ doc.punchOut.isSome then
              (store', .done (alreadyOutRespV3 doc))
            else if doc.punchIn.isSome ∧ doc.punchOut = none then
              let p := doc.punchIn.getD 0
              let diffSec : Int := (c.t : Int) - (doc.date * 86400 + p)
              if diffSec < minI then
                (store', .done (tooSoonRespV2 doc.punchIn diffSec minI))
              else
                (store', .needCond idx)
            else
              (store', .done { code := 400, message := "Invalid attendance state" })
  | .needCond idx =>
    match condPunchOutV3 store idx c.t with
    | (store', some u) =>
      if u.punchOut.isSome then
        (store', .done (outSuccessRespV3 u))
      else
        (store', .needRead idx)
    | (store', none) => (store', .needRead idx)
  | .needRead idx =>
    match readById store idx with
    | some latest =>
      if latest.punchOut.isSome then
        (store, .done (byOtherRespV3 latest))
      else
        (store, .done fail500RespV2)
    | none =>
      (store, .done fail500RespV2)
  | .done r => (store, .done r)

/-- One scheduled execution of the V3 handler over a list of concurrent
calls, starting from `store0`. -/
def v3Exec (minI : Int) (users : List UserRec) (calls : List V3Call)
    (store0 : List AttRec) (sched : List Nat) : MState V3Phase :=
  runSched
    (fun i store ph =>
      match calls[i]? with
      | some c => v3Step minI users c store ph
      | none => (store, ph))
    sched ⟨store0, List.replicate calls.length .start⟩

/-- Run one V3 request to completion in isolation (sequential
semantics); a V3 request performs at most three store operations. -/
def v3Solo (minI : Int) (users : List UserRec) (c : V3Call)
    (store : List AttRec) : List AttRec × Response :=
  match v3Step minI users c store .start with
  | (s1, .done r) => (s1, r)
  | (s1, p1) =>
    match v3Step minI users c s1 p1 with
    | (s2, .done r) => (s2, r)
    | (s2, p2) =>
      match v3Step minI users c s2 p2 with
      | (s3, .done r) => (s3, r)
      | (s3, _) => (s3, { code := 0, message := "" })

/-! ## part_004: the `moment-timezone` variant (`src/unnamed/part_004`)

Its records carry both ISO instants (`punchInAt`/`punchOutAt`) and
12-hour display times (`punchIn`/`punchOut`).  Notable differences from
the other variants:

* the `User.findOne(...).catch(() => null)` result is **never checked**
  — an unknown `userId` still creates an attendance record, with
  name/role resolved from the request body or defaulted to `""`;
* a record whose `punchInAt` is missing (and `punchOut` unset) is
  silently *repaired* into a fresh punch-in;
* the clock is read afresh for the day key, the punch-in timestamp, the
  elapsed check and the punch-out timestamp — a `P4Req` therefore runs
  against an explicit `clock` list, consumed one entry per
  `moment().tz(APP_TZ)` call in source order.

`duration` strings (`hh:mm:ss`) are modelled as their total seconds;
`Math.max(0, ...)` clamping is `Nat` truncated subtraction. -/

structure P4Rec where
  userId : String
  name : String
  role : String
  date : Nat
  punchInAt : Option Nat := none
  punchIn : Option Nat := none
  punchOutAt : Option Nat := none
  punchOut : Option Nat := none
  imageData : Option String := none
deriving DecidableEq, Repr

structure P4Req where
  uid : String
  reqName : Option String := none
  reqRole : Option String := none
  imageData : Option String := none
deriving DecidableEq, Repr

structure P4Response where
  code : Nat
  message : String
  status : Option String := none
  date : Option Nat := none
  punchIn : Option Nat := none
  punchInAt : Option Nat := none
  punchOut : Option Nat := none
  punchOutAt : Option Nat := none
  duration : Option Nat := none
  name : Option String := none
  role : Option String := none
deriving DecidableEq, Repr

/-- Computes `resolvedName` (line 26): a nonempty trimmed request string wins,
else the (possibly absent) user document's field, else `""`. -/
def p4Resolve (reqField : Option String) (userField : Option String) : String :=
  match reqField with
  | some s => if s.trim ≠ "" then s.trim else userField.getD ""
  | none => userField.getD ""

/-- Duration between two optional instants as seconds
(`Math.max(0, Math.floor((out - in) / 1000))`), `none` when either is
missing. -/
def p4Duration (inAt outAt : Option Nat) : Option Nat :=
  match inAt, outAt with
  | some a, some b => some (b - a)
  | _, _ => none

def punchInRespP4 (r : P4Rec) : P4Response :=
  { code := 200, message := "Punched In Successfully",
    status := some "Punched In", date := some r.date,
    punchIn := r.punchIn, punchInAt := r.punchInAt,
    punchOut := none, punchOutAt := none, duration := none,
    name := some r.name, role := some r.role }

def repairRespP4 (r : P4Rec) : P4Response :=
  { code := 200, message := "Punched In (repaired missing punchInAt)",
    status := some "Punched In", date := some r.date,
    punchIn := r.punchIn, punchInAt := r.punchInAt,
    punchOut := none, punchOutAt := none, duration := none,
    name := some r.name, role := some r.role }

def fallbackCreateRespP4 (r : P4Rec) : P4Response :=
  { code := 200, message := "Punched In (created fallback record)",
    status := some "Punched In", date := some r.date,
    punchIn := r.punchIn, punchInAt := r.punchInAt,
    punchOut := none, punchOutAt := none, duration := none,
    name := some r.name, role := some r.role }

def tooSoonRespP4 (r : P4Rec) (elapsedSec : Nat) (minRepeat : Int) : P4Response :=
  { code := 429,
    message := s!"Too soon to punch out: already punched in {elapsedSec} seconds ago. Please wait {minRepeat - elapsedSec} more second(s).",
    status := some "Punched In", date := some r.date,
    punchIn := r.punchIn, punchInAt := r.punchInAt,
    punchOut := none, punchOutAt := none, duration := none,
    name := some r.name, role := some r.role }

def outSuccessRespP4 (u : P4Rec) : P4Response :=
  { code := 200, message := "Punched Out Successfully",
    status := some "Punched Out", date := some u.date,
    punchIn := u.punchIn, punchInAt := u.punchInAt,
    punchOut := u.punchOut, punchOutAt := u.punchOutAt,
    duration := p4Duration u.punchInAt u.punchOutAt,
    name := some u.name, role := some u.role }

def raceResolvedRespP4 (latest : P4Rec) : P4Response :=
  { code := 200, message := "Already Punched Out (race resolved)",
    status := some "Punched Out", date := some latest.date,
    punchIn := latest.punchIn, punchInAt := latest.punchInAt,
    punchOut := latest.punchOut, punchOutAt := latest.punchOutAt,
    duration := p4Duration latest.punchInAt latest.punchOutAt,
    name := some latest.name, role := some latest.role }

def alreadyBothRespP4 (r : P4Rec) : P4Response :=
  { code := 200, message := "Already Punched Out",
    status := some "Punched Out", date := some r.date,
    punchIn := r.punchIn, punchInAt := r.punchInAt,
    punchOut := r.punchOut, punchOutAt := r.punchOutAt,
    duration := p4Duration r.punchInAt r.punchOutAt,
    name := some r.name, role := some r.role }

/-- The repair write (lines 80–85): set `punchInAt`/`punchIn` from a
fresh clock read; overwrite name/role/imageData only when resolved
truthy. -/
def p4Repair (rec : P4Rec) (t : Nat) (rName rRole : String)
    (img : Option String) : P4Rec :=
  { rec with
    punchInAt := some t, punchIn := some (todOf t),
    name := if rName ≠ "" then rName else rec.name,
    role := if rRole ≠ "" then rRole else rec.role,
    imageData := if img.isSome then img else rec.imageData }

/-- A freshly created record (lines 49–57). -/
def p4NewRec (uid : String) (rName rRole : String) (img : Option String)
    (today t : Nat) : P4Rec :=
  { userId := uid, name := rName, role := rRole, date := today,
    punchInAt := some t, punchIn := some (todOf t), imageData := img }

/-- Sequential embedding of the `part_004` handler.  `clock` is the list
of instants returned by successive `moment().tz(APP_TZ)` calls, consumed
in source order: entry 0 is `nowForDate` (line 30); entry 1 is the next
read of the taken branch (creation line 46, repair line 77, or
`nowForElapsed` line 162); entry 2 is `nowForPunchOut` (line 191). -/
def handlerP4 (minRepeat : Int) (users : List UserRec) (req : P4Req)
    (clock : List Nat) (store : List P4Rec) : List P4Rec × P4Response :=
  if req.uid = "" then
    (store, { code := 400, message := "Missing userId" })
  else
    -- `User.findOne(...).catch(() => null)`: the result may be `none`
    -- and is never checked against `none` afterwards
    let user := findUser users req.uid
    let rName := p4Resolve req.reqName (user.map (·.name))
    let rRole := p4Resolve req.reqRole (user.map (·.role))
    let today := dayOf (clock.getD 0 0)
    match findWithIdx (fun r => r.userId = req.uid ∧ r.date = today) store with
    | none =>
      -- Punch in (lines 45–72); fresh clock read on line 46
      let t := clock.getD 1 0
      let newRec := p4NewRec req.uid rName rRole req.imageData today t
      (store ++ [newRec], punchInRespP4 newRec)
    | some (idx, record) =>
      if record.punchInAt = none ∧ record.punchOut = none then
        -- Repair branch (lines 76–99); fresh clock read on line 77
        let t := clock.getD 1 0
        let rec' := p4Repair record t rName rRole req.imageData
        (store.set idx rec', repairRespP4 rec')
      else if record.punchIn.isSome ∧ record.punchOut = none then
        -- Punch-out path (lines 102–272): re-read the record (line 104)
        match findWithIdx (fun r => r.userId = req.uid ∧ r.date = today) store with
        | none =>
          -- fallback create (lines 108–134), clock read on line 110;
          -- unreachable under sequential semantics
          let t := clock.getD 1 0
          let newRec := p4NewRec req.uid rName rRole req.imageData today t
          (store ++ [newRec], fallbackCreateRespP4 newRec)
        | some (idx2, record2) =>
          match record2.punchInAt with
          | none =>
            -- repair after re-read (lines 136–157), clock read line 137;
            -- unreachable under sequential semantics
            let t := clock.getD 1 0
            let rec' := p4Repair record2 t rName rRole req.imageData
            (store.set idx2 rec', repairRespP4 rec')
          | some inAt =>
            -- elapsed check (lines 161–188), clock read on line 162
            let nowForElapsed := clock.getD 1 0
            let elapsedSec : Nat := nowForElapsed - inAt
            if (elapsedSec : Int) < minRepeat then
              (store, tooSoonRespP4 record2 elapsedSec minRepeat)
            else
              -- punch-out write (lines 190–212), clock read on line 191
              let tOut := clock.getD 2 0
              match findWithIdx
                  (fun r => r.userId = req.uid ∧ r.date = today ∧
                            r.punchOut = none ∧ r.punchInAt = some inAt)
                  store with
              | some (idx3, r3) =>
                let u : P4Rec := { r3 with
                  punchOutAt := some tOut, punchOut := some (todOf tOut),
                  name := if rName ≠ "" then rName else r3.name,
                  role := if rRole ≠ "" then rRole else r3.role,
                  imageData := if req.imageData.isSome then req.imageData
                               else r3.imageData }
                (store.set idx3 u, outSuccessRespP4 u)
              | none =>
                -- race lost (lines 214–243): re-read and report;
                -- unreachable under sequential semantics
                match findWithIdx
                    (fun r => r.userId = req.uid ∧ r.date = today) store with
                | some (_, latest) => (store, raceResolvedRespP4 latest)
                | none =>
                  -- `latest.date` throws; the catch-all answers 500
                  (store, { code := 500, message := "Internal Server Error" })
      else
        (store, alreadyBothRespP4 record)

/-! ## Cooldown configuration (claim C10)

`pages/api/submit-attendance.js` lines 130/254 versus
`src/unnamed/part_004` lines 7–10. -/

/-- Worker for `jsNumber`: parse a run of decimal digits. -/
def digitsVal : List Char → Nat → Option Nat
  | [], acc => some acc
  | c :: cs, acc =>
    if c.isDigit then digitsVal cs (acc * 10 + (c.toNat - 48)) else none

/-- JS `Number()` on the strings at issue: an optional sign followed by
decimal digits parses to its value, the empty string to `0`, anything
else to NaN (`none`). -/
def jsNumber (s : String) : Option Int :=
  match s.data with
  | [] => some 0
  | ['-'] => none
  | '-' :: cs => (digitsVal cs 0).map fun n => -(n : Int)
  | cs => (digitsVal cs 0).map fun n => (n : Int)

/-- Models `const MIN_INTERVAL = Number(process.env.MIN_PUNCH_INTERVAL_SECONDS) || 60`:
`Number(undefined)` is NaN, and NaN and `0` are both falsy, so both fall
back to 60. -/
def minIntervalOfEnv (env : Option String) : Int :=
  match env with
  | none => 60
  | some s =>
    match jsNumber s with
    | none => 60
    | some v => if v = 0 then 60 else v

/-- Models `const MIN_REPEAT_SECONDS = env !== undefined && env !== "" ?
Number(env) : 60` (part_004): an explicit `"0"` is honoured; a
non-numeric value yields NaN (`none`). -/
def minRepeatOfEnv (env : Option String) : Option Int :=
  match env with
  | none => some 60
  | some s => if s = "" then some 60 else jsNumber s

/-! ## Outcome vocabulary -/

/-- The specification's `PunchOutcome` variants. -/
inductive Outcome where
  | punchedIn
  | tooSoon
  | punchedOut
  | alreadyPunchedOut
  | errorOut
deriving DecidableEq, Repr

/-- Classify a handler response as one of the specification's outcomes,
by its wire status/message. -/
def outcomeOf (r : Response) : Outcome :=
  if r.status = some "Punched In" then .punchedIn
  else if r.status = some "Already Punched In (recent)" then .tooSoon
  else if r.status = some "Punched Out" then
    (if r.message = "Already Punched Out" then .alreadyPunchedOut
     else .punchedOut)
  else .errorOut

/-- Modelled from the spec (§8, first property): tail of the predicted
outcome sequence, after punch-in happened at instant `t0`; the flag
records whether the punch-out has already been delivered. -/
def specPatternGo (cool : Int) (t0 : Nat) : Bool → List Nat → List Outcome
  | _, [] => []
  | true, _ :: ts => .alreadyPunchedOut :: specPatternGo cool t0 true ts
  | false, t :: ts =>
    if (t : Int) - t0 < cool then .tooSoon :: specPatternGo cool t0 false ts
    else .punchedOut :: specPatternGo cool t0 true ts

/-- Modelled from the spec (§8, first property): the outcome sequence
predicted for successive same-day calls at instants `ts`: `PunchedIn`
first, `TooSoon` while `elapsed < cool`, then exactly one `PunchedOut`,
then `AlreadyPunchedOut` ever after. -/
def specOutcomePattern (cool : Int) : List Nat → List Outcome
  | [] => []
  | t0 :: ts => .punchedIn :: specPatternGo cool t0 false ts

/-! ## Helper predicates on machine phases -/

def isDoneV2 : V2Phase → Bool
  | .done _ => true
  | _ => false

def isDonePunchedInV2 : V2Phase → Bool
  | .done r => r.status = some "Punched In"
  | _ => false

def isDoneOutSuccessV2 : V2Phase → Bool
  | .done r => r.status = some "Punched Out" &&
               r.message = "Punched Out Successfully"
  | _ => false

def isDoneByOtherV2 : V2Phase → Bool
  | .done r => r.status = some "Punched Out" &&
               r.message = "Punched Out (by another request)"
  | _ => false

def isDoneV3 : V3Phase → Bool
  | .done _ => true
  | _ => false

def isDonePunchedInV3 : V3Phase → Bool
  | .done r => r.status = some "Punched In"
  | _ => false

def isDoneOutSuccessV3 : V3Phase → Bool
  | .done r => r.status = some "Punched Out" &&
               r.message = "Punched Out Successfully"
  | _ => false

def isDoneByOtherV3 : V3Phase → Bool
  | .done r => r.status = some "Punched Out" &&
               r.message = "Punched Out (by another request)"
  | _ => false

/-- Whether some stored record already has its punch-out set. -/
def storeClosed (store : List AttRec) : Bool :=
  store.any fun r => r.punchOut.isSome

/-- Invariant of a V3 execution over calls that all target the same
existing user `u` on the same day `d`, starting from the empty store.
The atomic upsert keeps the store at most a singleton, punch-in happens
exactly once (`inCount`), the conditional punch-out wins exactly once
(`outCount`), and every finished call reports the persisted record. -/
structure V3Inv (u : String) (d : Nat) (calls : List V3Call)
    (s : MState V3Phase) : Prop where
  len : s.phases.length = calls.length
  shape : s.store = [] ∨
    ∃ r, s.store = [r] ∧ r.userId = u ∧ r.date = d ∧ r.punchIn.isSome
  startOnly : s.store = [] → ∀ ph ∈ s.phases, ph = V3Phase.start
  inCount : s.phases.countP isDonePunchedInV3 = s.store.length
  pending : ∀ (j idx : Nat), (s.phases[j]? = some (V3Phase.needCond idx) ∨
      s.phases[j]? = some (V3Phase.needRead idx)) → idx = 0
  readClosed : ∀ (j idx : Nat), s.phases[j]? = some (V3Phase.needRead idx) →
    ∃ r, s.store = [r] ∧ r.punchOut.isSome
  doneOk : ∀ (j : Nat) (resp : Response), s.phases[j]? = some (V3Phase.done resp) →
    resp.code = 200 ∧ ∃ r, s.store = [r] ∧ resp.punchIn = r.punchIn ∧
      (resp.punchOut.isSome → resp.punchOut = r.punchOut)
  outCount : s.phases.countP isDoneOutSuccessV3 =
    (if storeClosed s.store then 1 else 0)
  byOtherSome : ∀ (j : Nat) (resp : Response),
    s.phases[j]? = some (V3Phase.done resp) →
    isDoneByOtherV3 (V3Phase.done resp) = true → resp.punchOut.isSome

/-- Invariant of a V2 execution (arbitrary calls) started from a store
in which no record had its punch-out set yet.  Pending conditional
punch-outs and re-fetches always target an existing document, a
re-fetch only ever happens once the document is closed (so the 500
fallback is unreachable), each closed document has a unique winning
punch-out response, and each race-lost response reports the winner's
persisted timestamp. -/
structure V2Inv (calls : List V2Call) (s : MState V2Phase) : Prop where
  len : s.phases.length = calls.length
  condIdx : ∀ (j idx : Nat), s.phases[j]? = some (V2Phase.needCond idx) →
    ∃ r, s.store[idx]? = some r
  readClosed : ∀ (j idx : Nat), s.phases[j]? = some (V2Phase.needRead idx) →
    ∃ r, s.store[idx]? = some r ∧ r.punchOut.isSome
  winner : ∀ (idx : Nat) (r : AttRec) (v : Nat), s.store[idx]? = some r → r.punchOut = some v →
    ∃ (k : Nat) (p : Option Nat), s.phases[k]? = some (V2Phase.done (outSuccessRespV2 p (some v)))
  byOtherOk : ∀ (j : Nat) (resp : Response), s.phases[j]? = some (V2Phase.done resp) →
    isDoneByOtherV2 (V2Phase.done resp) = true →
    ∃ (pin : Option Nat) (v : Nat), resp = byOtherRespV2 pin (some v) ∧
      (∃ (idx : Nat) (r : AttRec), s.store[idx]? = some r ∧ r.punchOut = some v) ∧
      (∃ (k : Nat) (p : Option Nat), s.phases[k]? = some (V2Phase.done (outSuccessRespV2 p (some v))))
  no500 : ∀ (j : Nat) (resp : Response), s.phases[j]? = some (V2Phase.done resp) →
    resp ≠ fail500RespV2

/-! ## Basic lemmas about the store primitives -/

theorem findWithIdxAux_some {α : Type} (p : α → Bool) :
    ∀ (l : List α) (k i : Nat) (r : α),
      findWithIdxAux p l k = some (i, r) →
      k ≤ i ∧ l[i - k]? = some r ∧ p r = true := by
  intro l
  induction l with
  | nil => intro k i r h; simp [findWithIdxAux] at h
  | cons a l ih =>
    intro k i r h
    by_cases hp : p a
    · simp [findWithIdxAux, hp] at h
      obtain ⟨hk, ha⟩ := h
      subst hk; subst ha
      simp [hp]
    · simp [findWithIdxAux, hp] at h
      obtain ⟨hk, hget, hpr⟩ := ih (k + 1) i r h
      refine ⟨by omega, ?_, hpr⟩
      have : i - k = (i - (k + 1)) + 1 := by omega
      rw [this]
      simpa using hget

theorem findWithIdx_some {α : Type} (p : α → Bool) (l : List α) (i : Nat)
    (r : α) (h : findWithIdx p l = some (i, r)) :
    l[i]? = some r ∧ p r = true := by
  have := findWithIdxAux_some p l 0 i r h
  simpa using this.2

theorem countP_set_shift {α : Type} (p : α → Bool) (l : List α) (i : Nat)
    (a b : α) (h : l[i]? = some a) :
    (l.set i b).countP p + (if p a then 1 else 0) =
      l.countP p + (if p b then 1 else 0) := by
  induction l generalizing i with
  | nil => simp at h
  | cons x xs ih =>
    cases i with
    | zero =>
      simp only [List.getElem?_cons_zero, Option.some.injEq] at h
      subst h
      simp only [List.set_cons_zero, List.countP_cons]
      omega
    | succ n =>
      simp only [List.getElem?_cons_succ] at h
      have hih := ih n h
      simp only [List.set_cons_succ, List.countP_cons]
      omega

theorem countP_set_same {α : Type} (p : α → Bool) (l : List α) (i : Nat)
    (a b : α) (h : l[i]? = some a) (hab : p a = p b) :
    (l.set i b).countP p = l.countP p := by
  have := countP_set_shift p l i a b h
  rw [hab] at this
  omega

theorem countP_set_incr {α : Type} (p : α → Bool) (l : List α) (i : Nat)
    (a b : α) (h : l[i]? = some a) (ha : p a = false) (hb : p b = true) :
    (l.set i b).countP p = l.countP p + 1 := by
  have := countP_set_shift p l i a b h
  rw [ha, hb] at this
  simp at this
  omega

theorem set_self_of_getElem? {α : Type} (l : List α) (i : Nat) (a : α)
    (h : l[i]? = some a) : l.set i a = l := by
  induction l generalizing i with
  | nil => simp at h
  | cons x xs ih =>
    cases i with
    | zero => simp_all
    | succ n =>
      simp only [List.getElem?_cons_succ] at h
      simp [ih n h]

/-! ## Equation lemmas for the V2 machine -/

theorem v2Step_start_create (minI : Int) (users : List UserRec)
    (c : V2Call) (store : List AttRec) (user : UserRec)
    (huid : c.uid ≠ "") (huser : findUser users c.uid = some user)
    (hfind : findAttWithIdx store c.uid (dayOf c.tDate) = none) :
    v2Step minI users c store .start = (store, .needCreate user) := by
  simp [v2Step, huid, huser, hfind]

theorem v2Step_start_tooSoon (minI : Int) (users : List UserRec)
    (c : V2Call) (store : List AttRec) (user : UserRec) (idx : Nat)
    (rec : AttRec) (p : Nat)
    (huid : c.uid ≠ "") (huser : findUser users c.uid = some user)
    (hfind : findAttWithIdx store c.uid (dayOf c.tDate) = some (idx, rec))
    (hin : rec.punchIn = some p) (hout : rec.punchOut = none)
    (hlt : (c.tNow : Int) - (rec.date * 86400 + p) < minI) :
    v2Step minI users c store .start =
      (store, .done (tooSoonRespV2 (some p)
        ((c.tNow : Int) - (rec.date * 86400 + p)) minI)) := by
  simp [v2Step, huid, huser, hfind, hin, hout, hlt]

theorem v2Step_start_cool (minI : Int) (users : List UserRec)
    (c : V2Call) (store : List AttRec) (user : UserRec) (idx : Nat)
    (rec : AttRec) (p : Nat)
    (huid : c.uid ≠ "") (huser : findUser users c.uid = some user)
    (hfind : findAttWithIdx store c.uid (dayOf c.tDate) = some (idx, rec))
    (hin : rec.punchIn = some p) (hout : rec.punchOut = none)
    (hge : ¬ (c.tNow : Int) - (rec.date * 86400 + p) < minI) :
    v2Step minI users c store .start = (store, .needCond idx) := by
  simp [v2Step, huid, huser, hfind, hin, hout, hge]

theorem v2Step_start_already (minI : Int) (users : List UserRec)
    (c : V2Call) (store : List AttRec) (user : UserRec) (idx : Nat)
    (rec : AttRec)
    (huid : c.uid ≠ "") (huser : findUser users c.uid = some user)
    (hfind : findAttWithIdx store c.uid (dayOf c.tDate) = some (idx, rec))
    (hin : rec.punchIn.isSome) (hout : rec.punchOut.isSome) :
    v2Step minI users c store .start =
      (store, .done (alreadyOutRespV2 rec.punchIn rec.punchOut)) := by
  have hne : ¬ rec.punchOut = none := by
    cases h : rec.punchOut <;> simp_all
  simp [v2Step, huid, huser, hfind, hin, hout, hne]

theorem v2Step_needCond_open (minI : Int) (users : List UserRec)
    (c : V2Call) (store : List AttRec) (idx : Nat) (r : AttRec)
    (hget : store[idx]? = some r) (hout : r.punchOut = none) :
    v2Step minI users c store (.needCond idx) =
      (store.set idx { r with punchOut := some (todOf c.tNow) },
       .done (outSuccessRespV2 r.punchIn (some (todOf c.tNow)))) := by
  simp [v2Step, condPunchOutV2, hget, hout, outSuccessRespV2]

theorem v2Step_needCond_closed (minI : Int) (users : List UserRec)
    (c : V2Call) (store : List AttRec) (idx : Nat) (r : AttRec)
    (hget : store[idx]? = some r) (hout : r.punchOut.isSome) :
    v2Step minI users c store (.needCond idx) = (store, .needRead idx) := by
  have hne : ¬ r.punchOut = none := by
    cases h : r.punchOut <;> simp_all
  simp [v2Step, condPunchOutV2, hget, hne]

/-! ## Solo-run (sequential) equations for V2 -/

theorem v2Solo_create (minI : Int) (users : List UserRec)
    (c : V2Call) (store : List AttRec) (user : UserRec)
    (huid : c.uid ≠ "") (huser : findUser users c.uid = some user)
    (hfind : findAttWithIdx store c.uid (dayOf c.tDate) = none) :
    v2Solo minI users c store =
      (store ++ [{ userId := c.uid, name := user.name, role := user.role,
                   date := dayOf c.tDate, punchIn := some (todOf c.tNow),
                   punchOut := none, recordedAt := c.tNow }],
       punchInRespV2 (todOf c.tNow)) := by
  simp [v2Solo, v2Step, huid, huser, hfind]

theorem v2Solo_tooSoon (minI : Int) (users : List UserRec)
    (c : V2Call) (store : List AttRec) (user : UserRec) (idx : Nat)
    (rec : AttRec) (p : Nat)
    (huid : c.uid ≠ "") (huser : findUser users c.uid = some user)
    (hfind : findAttWithIdx store c.uid (dayOf c.tDate) = some (idx, rec))
    (hin : rec.punchIn = some p) (hout : rec.punchOut = none)
    (hlt : (c.tNow : Int) - (rec.date * 86400 + p) < minI) :
    v2Solo minI users c store =
      (store, tooSoonRespV2 (some p)
        ((c.tNow : Int) - (rec.date * 86400 + p)) minI) := by
  have h1 := v2Step_start_tooSoon minI users c store user idx rec p
    huid huser hfind hin hout hlt
  simp [v2Solo, h1]

theorem v2Solo_already (minI : Int) (users : List UserRec)
    (c : V2Call) (store : List AttRec) (user : UserRec) (idx : Nat)
    (rec : AttRec)
    (huid : c.uid ≠ "") (huser : findUser users c.uid = some user)
    (hfind : findAttWithIdx store c.uid (dayOf c.tDate) = some (idx, rec))
    (hin : rec.punchIn.isSome) (hout : rec.punchOut.isSome) :
    v2Solo minI users c store =
      (store, alreadyOutRespV2 rec.punchIn rec.punchOut) := by
  have h1 := v2Step_start_already minI users c store user idx rec
    huid huser hfind hin hout
  simp [v2Solo, h1]

theorem v2Solo_punchOut (minI : Int) (users : List UserRec)
    (c : V2Call) (store : List AttRec) (user : UserRec) (idx : Nat)
    (rec : AttRec) (p : Nat)
    (huid : c.uid ≠ "") (huser : findUser users c.uid = some user)
    (hfind : findAttWithIdx store c.uid (dayOf c.tDate) = some (idx, rec))
    (hin : rec.punchIn = some p) (hout : rec.punchOut = none)
    (hge : ¬ (c.tNow : Int) - (rec.date * 86400 + p) < minI) :
    v2Solo minI users c store =
      (store.set idx { rec with punchOut := some (todOf c.tNow) },
       outSuccessRespV2 rec.punchIn (some (todOf c.tNow))) := by
  have h1 := v2Step_start_cool minI users c store user idx rec p
    huid huser hfind hin hout hge
  have hget : store[idx]? = some rec := (findWithIdx_some _ store idx rec hfind).1
  have h2 := v2Step_needCond_open minI users c store idx rec hget hout
  simp [v2Solo, h1, h2]

/-! ## Solo-run (sequential) equations for V3 -/

theorem v3Solo_create (minI : Int) (users : List UserRec)
    (c : V3Call) (store : List AttRec) (user : UserRec)
    (huid : c.uid ≠ "") (huser : findUser users c.uid = some user)
    (hfind : findAttWithIdx store c.uid (dayOf c.t) = none) :
    v3Solo minI users c store =
      (store ++ [{ userId := c.uid, name := user.name, role := user.role,
                   date := dayOf c.t, punchIn := some (todOf c.t),
                   punchOut := none, recordedAt := c.t }],
       punchInRespV3 { userId := c.uid, name := user.name, role := user.role,
                       date := dayOf c.t, punchIn := some (todOf c.t),
                       punchOut := none, recordedAt := c.t }) := by
  simp [v3Solo, v3Step, upsertV3, huid, huser, hfind]

theorem v3Solo_already (minI : Int) (users : List UserRec)
    (c : V3Call) (store : List AttRec) (user : UserRec) (idx : Nat)
    (rec : AttRec)
    (huid : c.uid ≠ "") (huser : findUser users c.uid = some user)
    (hfind : findAttWithIdx store c.uid (dayOf c.t) = some (idx, rec))
    (hin : rec.punchIn.isSome) (hout : rec.punchOut.isSome) :
    v3Solo minI users c store = (store, alreadyOutRespV3 rec) := by
  simp [v3Solo, v3Step, upsertV3, huid, huser, hfind, hin, hout]

theorem v3Solo_tooSoon (minI : Int) (users : List UserRec)
    (c : V3Call) (store : List AttRec) (user : UserRec) (idx : Nat)
    (rec : AttRec) (p : Nat)
    (huid : c.uid ≠ "") (huser : findUser users c.uid = some user)
    (hfind : findAttWithIdx store c.uid (dayOf c.t) = some (idx, rec))
    (hin : rec.punchIn = some p) (hout : rec.punchOut = none)
    (hlt : (c.t : Int) - (rec.date * 86400 + p) < minI) :
    v3Solo minI users c store =
      (store, tooSoonRespV2 (some p)
        ((c.t : Int) - (rec.date * 86400 + p)) minI) := by
  simp [v3Solo, v3Step, upsertV3, huid, huser, hfind, hin, hout, hlt]

theorem v3Solo_punchOut (minI : Int) (users : List UserRec)
    (c : V3Call) (store : List AttRec) (user : UserRec) (idx : Nat)
    (rec : AttRec) (p : Nat)
    (huid : c.uid ≠ "") (huser : findUser users c.uid = some user)
    (hfind : findAttWithIdx store c.uid (dayOf c.t) = some (idx, rec))
    (hin : rec.punchIn = some p) (hout : rec.punchOut = none)
    (hge : ¬ (c.t : Int) - (rec.date * 86400 + p) < minI) :
    v3Solo minI users c store =
      (store.set idx { rec with punchOut := some (todOf c.t),
                                recordedAt := c.t },
       outSuccessRespV3 { rec with punchOut := some (todOf c.t),
                                   recordedAt := c.t }) := by
  have hget : store[idx]? = some rec := (findWithIdx_some _ store idx rec hfind).1
  simp [v3Solo, v3Step, upsertV3, huid, huser, hfind, hin, hout, hge,
        condPunchOutV3, hget]

/-! ## Claim C10 -/

/-- C10: in the cooldown-enforcing handlers the effective cooldown is
`Number(process.env.MIN_PUNCH_INTERVAL_SECONDS) || 60`, so configuring
`"0"`, the empty string, leaving it unset, or any non-numeric value all
yield an effective cooldown of 60 seconds — the cooldown cannot be
disabled by configuring zero — whereas the `part_004` variant
(`MIN_REPEAT_SECONDS`) tests explicitly for undefined/empty and honours
an explicit `"0"`. -/
theorem c10_cooldown_zero_falls_back_to_60 :
    minIntervalOfEnv (some "0") = 60 ∧
    minIntervalOfEnv (some "") = 60 ∧
    minIntervalOfEnv none = 60 ∧
    (∀ s : String, jsNumber s = none → minIntervalOfEnv (some s) = 60) ∧
    minRepeatOfEnv (some "0") = some 0 := by
  refine ⟨by decide, by decide, rfl, ?_, by decide⟩
  intro s h
  simp [minIntervalOfEnv, h]

/-- Witness for C10 at the concrete non-numeric value `"abc"`. -/
theorem c10_cooldown_zero_falls_back_to_60_witness :
    jsNumber "abc" = none ∧ minIntervalOfEnv (some "abc") = 60 :=
  ⟨by decide, c10_cooldown_zero_falls_back_to_60.2.2.2.1 "abc" (by decide)⟩

/-! ## Claim C5 -/

/-- C5: the cooldown boundary is inclusive.  In the cooldown-enforcing
handlers (V2, V3, part_004) a call on an open record whose elapsed time
since punch-in is at least — in particular exactly equal to — the
cooldown proceeds to punch-out, and only `elapsed < cooldown` yields the
too-soon outcome. -/
theorem c5_cooldown_boundary_inclusive :
    (∀ (minI : Int) (users : List UserRec) (user : UserRec) (c : V2Call)
       (store : List AttRec) (idx : Nat) (rec : AttRec) (p : Nat),
      c.uid ≠ "" → findUser users c.uid = some user →
      findAttWithIdx store c.uid (dayOf c.tDate) = some (idx, rec) →
      rec.punchIn = some p → rec.punchOut = none →
      ((minI ≤ (c.tNow : Int) - (rec.date * 86400 + p) →
        (v2Solo minI users c store).2 =
          outSuccessRespV2 rec.punchIn (some (todOf c.tNow))) ∧
       ((c.tNow : Int) - (rec.date * 86400 + p) < minI →
        (v2Solo minI users c store).2 =
          tooSoonRespV2 (some p) ((c.tNow : Int) - (rec.date * 86400 + p)) minI))) ∧
    (∀ (minI : Int) (users : List UserRec) (user : UserRec) (c : V3Call)
       (store : List AttRec) (idx : Nat) (rec : AttRec) (p : Nat),
      c.uid ≠ "" → findUser users c.uid = some user →
      findAttWithIdx store c.uid (dayOf c.t) = some (idx, rec) →
      rec.punchIn = some p → rec.punchOut = none →
      ((minI ≤ (c.t : Int) - (rec.date * 86400 + p) →
        (v3Solo minI users c store).2 =
          outSuccessRespV3 { rec with punchOut := some (todOf c.t),
                                      recordedAt := c.t }) ∧
       ((c.t : Int) - (rec.date * 86400 + p) < minI →
        (v3Solo minI users c store).2 =
          tooSoonRespV2 (some p) ((c.t : Int) - (rec.date * 86400 + p)) minI))) ∧
    (∀ (minRepeat : Int) (users : List UserRec) (req : P4Req)
       (rec : P4Rec) (t0 t1 t2 : Nat) (inAt : Nat),
      req.uid ≠ "" → rec.userId = req.uid → rec.date = dayOf t0 →
      rec.punchInAt = some inAt → rec.punchIn.isSome →
      rec.punchOut = none →
      ((minRepeat ≤ ((t1 - inAt : Nat) : Int) →
        (handlerP4 minRepeat users req [t0, t1, t2] [rec]).2.message =
          "Punched Out Successfully" ∧
        (handlerP4 minRepeat users req [t0, t1, t2] [rec]).2.punchOutAt =
          some t2) ∧
       (((t1 - inAt : Nat) : Int) < minRepeat →
        (handlerP4 minRepeat users req [t0, t1, t2] [rec]).2.code = 429 ∧
        (handlerP4 minRepeat users req [t0, t1, t2] [rec]).2.status =
          some "Punched In"))) := by
  refine ⟨?_, ?_, ?_⟩
  · intro minI users user c store idx rec p huid huser hfind hin hout
    constructor
    · intro hge
      rw [v2Solo_punchOut minI users c store user idx rec p huid huser hfind
        hin hout (by omega)]
    · intro hlt
      rw [v2Solo_tooSoon minI users c store user idx rec p huid huser hfind
        hin hout hlt]
  · intro minI users user c store idx rec p huid huser hfind hin hout
    constructor
    · intro hge
      rw [v3Solo_punchOut minI users c store user idx rec p huid huser hfind
        hin hout (by omega)]
    · intro hlt
      rw [v3Solo_tooSoon minI users c store user idx rec p huid huser hfind
        hin hout hlt]
  · intro minRepeat users req rec t0 t1 t2 inAt huid hu hd hinAt hin hout
    constructor
    · intro hge
      have hnl : ¬ (((t1 - inAt : Nat) : Int) < minRepeat) := by omega
      simp [handlerP4, findWithIdx, findWithIdxAux, huid, hu, hd, hinAt,
            hin, hout, hnl, outSuccessRespP4]
    · intro hlt
      simp [handlerP4, findWithIdx, findWithIdxAux, huid, hu, hd, hinAt,
            hin, hout, hlt, tooSoonRespP4]

/-- Witness for C5: with cooldown 60 and punch-in at second 100, a V2
call at second 160 — elapsed exactly 60 — punches out. -/
theorem c5_cooldown_boundary_inclusive_witness :
    (60 : Int) ≤ ((160 : Nat) : Int) - ((0 : Nat) * 86400 + (100 : Nat)) ∧
    (v2Solo 60 [{ userId := "U1", name := "Alice", role := "student" }]
      { uid := "U1", tDate := 160, tNow := 160 }
      [{ userId := "U1", name := "Alice", role := "student", date := 0,
         punchIn := some 100, punchOut := none, recordedAt := 100 }]).2 =
      outSuccessRespV2 (some 100) (some 160) :=
  ⟨by decide,
   (c5_cooldown_boundary_inclusive.1 60
      [{ userId := "U1", name := "Alice", role := "student" }]
      { userId := "U1", name := "Alice", role := "student" }
      { uid := "U1", tDate := 160, tNow := 160 }
      [{ userId := "U1", name := "Alice", role := "student", date := 0,
         punchIn := some 100, punchOut := none, recordedAt := 100 }]
      0
      { userId := "U1", name := "Alice", role := "student", date := 0,
        punchIn := some 100, punchOut := none, recordedAt := 100 }
      100 (by decide) rfl rfl rfl rfl).1 (by decide)⟩

/-! ## Claim C6 -/

/-- C6: once a record has both `punchIn` and `punchOut` set, every
further call for that identity/day performs no store write and returns
the Already-Punched-Out outcome with the stored timestamps — in V1, V2,
V3 and part_004 — and iterating any number of further V2 calls keeps
both the store and every response fixed. -/
theorem c6_terminal_state_idempotent :
    (∀ (users : List UserRec) (user : UserRec) (uid : String)
       (tDate tNow : Nat) (store : List AttRec) (idx : Nat) (rec : AttRec),
      uid ≠ "" → findUser users uid = some user →
      findAttWithIdx store uid (dayOf tDate) = some (idx, rec) →
      rec.punchIn.isSome → rec.punchOut.isSome →
      handlerV1 users uid tDate tNow store =
        (store, { code := 200, message := "Already Punched Out",
                  status := some "Punched Out", punchIn := rec.punchIn,
                  punchOut := rec.punchOut,
                  recordedAt := some rec.recordedAt })) ∧
    (∀ (minI : Int) (users : List UserRec) (user : UserRec) (c : V2Call)
       (store : List AttRec) (idx : Nat) (rec : AttRec),
      c.uid ≠ "" → findUser users c.uid = some user →
      findAttWithIdx store c.uid (dayOf c.tDate) = some (idx, rec) →
      rec.punchIn.isSome → rec.punchOut.isSome →
      v2Solo minI users c store =
        (store, alreadyOutRespV2 rec.punchIn rec.punchOut)) ∧
    (∀ (minI : Int) (users : List UserRec) (user : UserRec) (c : V3Call)
       (store : List AttRec) (idx : Nat) (rec : AttRec),
      c.uid ≠ "" → findUser users c.uid = some user →
      findAttWithIdx store c.uid (dayOf c.t) = some (idx, rec) →
      rec.punchIn.isSome → rec.punchOut.isSome →
      v3Solo minI users c store = (store, alreadyOutRespV3 rec)) ∧
    (∀ (minRepeat : Int) (users : List UserRec) (req : P4Req)
       (rec : P4Rec) (clock : List Nat) (t0 : Nat),
      req.uid ≠ "" → rec.userId = req.uid → rec.date = dayOf t0 →
      rec.punchIn.isSome → rec.punchOut.isSome →
      handlerP4 minRepeat users req (t0 :: clock) [rec] =
        ([rec], alreadyBothRespP4 rec)) ∧
    (∀ (minI : Int) (users : List UserRec) (user : UserRec) (u : String)
       (d : Nat) (store : List AttRec) (idx : Nat) (rec : AttRec),
      u ≠ "" → findUser users u = some user →
      findAttWithIdx store u d = some (idx, rec) →
      rec.punchIn.isSome → rec.punchOut.isSome →
      ∀ cs : List V2Call, (∀ c ∈ cs, c.uid = u ∧ dayOf c.tDate = d) →
      runV2Seq minI users cs store =
        (store, cs.map fun _ => alreadyOutRespV2 rec.punchIn rec.punchOut)) := by
  have hv2 : ∀ (minI : Int) (users : List UserRec) (user : UserRec)
      (c : V2Call) (store : List AttRec) (idx : Nat) (rec : AttRec),
      c.uid ≠ "" → findUser users c.uid = some user →
      findAttWithIdx store c.uid (dayOf c.tDate) = some (idx, rec) →
      rec.punchIn.isSome → rec.punchOut.isSome →
      v2Solo minI users c store =
        (store, alreadyOutRespV2 rec.punchIn rec.punchOut) := by
    intro minI users user c store idx rec huid huser hfind hin hout
    exact v2Solo_already minI users c store user idx rec huid huser hfind hin hout
  refine ⟨?_, hv2, ?_, ?_, ?_⟩
  · intro users user uid tDate tNow store idx rec huid huser hfind hin hout
    have hne : ¬ rec.punchOut = none := by
      cases h : rec.punchOut <;> simp_all
    simp [handlerV1, huid, huser, hfind, hne]
  · intro minI users user c store idx rec huid huser hfind hin hout
    exact v3Solo_already minI users c store user idx rec huid huser hfind hin hout
  · intro minRepeat users req rec clock t0 huid hu hd hin hout
    have hne : ¬ rec.punchOut = none := by
      cases h : rec.punchOut <;> simp_all
    simp [handlerP4, findWithIdx, findWithIdxAux, huid, hu, hd, hne, hin]
  · intro minI users user u d store idx rec huid huser hfind hin hout cs hcs
    induction cs with
    | nil => simp [runV2Seq]
    | cons c cs ih =>
      have hc := hcs c (List.mem_cons_self c cs)
      have hstep : v2Solo minI users c store =
          (store, alreadyOutRespV2 rec.punchIn rec.punchOut) := by
        apply hv2 minI users user c store idx rec
        · rw [hc.1]; exact huid
        · rw [hc.1]; exact huser
        · rw [hc.1, hc.2]; exact hfind
        · exact hin
        · exact hout
      have hrest := ih fun c' hc' => hcs c' (List.mem_cons_of_mem c hc')
      simp [runV2Seq, hstep, hrest]

/-- Witness for C6: two further V2 calls on a closed record leave the
store untouched and both report the stored timestamps. -/
theorem c6_terminal_state_idempotent_witness :
    findAttWithIdx
      [{ userId := "U1", name := "Alice", role := "student", date := 0,
         punchIn := some 100, punchOut := some 200, recordedAt := 200 }]
      "U1" 0 =
      some (0, { userId := "U1", name := "Alice", role := "student",
                 date := 0, punchIn := some 100, punchOut := some 200,
                 recordedAt := 200 }) ∧
    runV2Seq 60 [{ userId := "U1", name := "Alice", role := "student" }]
      [{ uid := "U1", tDate := 300, tNow := 300 },
       { uid := "U1", tDate := 400, tNow := 400 }]
      [{ userId := "U1", name := "Alice", role := "student", date := 0,
         punchIn := some 100, punchOut := some 200, recordedAt := 200 }] =
      ([{ userId := "U1", name := "Alice", role := "student", date := 0,
          punchIn := some 100, punchOut := some 200, recordedAt := 200 }],
       [alreadyOutRespV2 (some 100) (some 200),
        alreadyOutRespV2 (some 100) (some 200)]) :=
  ⟨rfl,
   (c6_terminal_state_idempotent.2.2.2.2 60
      [{ userId := "U1", name := "Alice", role := "student" }]
      { userId := "U1", name := "Alice", role := "student" } "U1" 0
      [{ userId := "U1", name := "Alice", role := "student", date := 0,
         punchIn := some 100, punchOut := some 200, recordedAt := 200 }]
      0
      { userId := "U1", name := "Alice", role := "student", date := 0,
        punchIn := some 100, punchOut := some 200, recordedAt := 200 }
      (by decide) rfl rfl (by decide) (by decide)
      [{ uid := "U1", tDate := 300, tNow := 300 },
       { uid := "U1", tDate := 400, tNow := 400 }]
      (by decide))⟩

/-! ## Claim C7 -/

/-- C7 counterexample: `part_004` does **not** fail with a
`CorruptRecord` error on a record whose `punchInAt` is absent — it
silently repairs it into a fresh punch-in, modifying the store and
answering 200 "Punched In (repaired missing punchInAt)". -/
theorem c7_corrupt_record_counterexample :
    (handlerP4 60 [] { uid := "U1" } [0, 5]
      [{ userId := "U1", name := "", role := "", date := 0 }]).2.message =
      "Punched In (repaired missing punchInAt)" ∧
    (handlerP4 60 [] { uid := "U1" } [0, 5]
      [{ userId := "U1", name := "", role := "", date := 0 }]).2.code = 200 ∧
    (handlerP4 60 [] { uid := "U1" } [0, 5]
      [{ userId := "U1", name := "", role := "", date := 0 }]).1 =
      [{ userId := "U1", name := "", role := "", date := 0,
         punchInAt := some 5, punchIn := some 5 }] := by
  refine ⟨rfl, rfl, rfl⟩

/-- C7 amended: the cooldown variant (V2) surfaces a record lacking
`punchIn` as a 400 "Invalid attendance state" error without modifying
the store, but the `part_004` variant silently repairs a record whose
`punchInAt` is absent (and `punchOut` unset) into a fresh punch-in;
no variant implements a `CorruptRecord` failure for the repaired case. -/
theorem c7_corrupt_record_amended :
    (∀ (minI : Int) (users : List UserRec) (user : UserRec) (c : V2Call)
       (store : List AttRec) (idx : Nat) (rec : AttRec),
      c.uid ≠ "" → findUser users c.uid = some user →
      findAttWithIdx store c.uid (dayOf c.tDate) = some (idx, rec) →
      rec.punchIn = none →
      v2Solo minI users c store =
        (store, { code := 400, message := "Invalid attendance state" })) ∧
    (∀ (minRepeat : Int) (users : List UserRec) (req : P4Req)
       (rec : P4Rec) (t0 t1 : Nat) (clock : List Nat),
      req.uid ≠ "" → rec.userId = req.uid → rec.date = dayOf t0 →
      rec.punchInAt = none → rec.punchOut = none →
      handlerP4 minRepeat users req (t0 :: t1 :: clock) [rec] =
        ([p4Repair rec t1
            (p4Resolve req.reqName ((findUser users req.uid).map (·.name)))
            (p4Resolve req.reqRole ((findUser users req.uid).map (·.role)))
            req.imageData],
         repairRespP4 (p4Repair rec t1
            (p4Resolve req.reqName ((findUser users req.uid).map (·.name)))
            (p4Resolve req.reqRole ((findUser users req.uid).map (·.role)))
            req.imageData))) := by
  constructor
  · intro minI users user c store idx rec huid huser hfind hin
    simp [v2Solo, v2Step, huid, huser, hfind, hin]
  · intro minRepeat users req rec t0 t1 clock huid hu hd hinAt hout
    simp [handlerP4, findWithIdx, findWithIdxAux, huid, hu, hd, hinAt, hout]

/-- Witness for C7's amended statement: a concrete V2 call on a record
with no `punchIn` gets the 400 invalid-state answer, store unchanged. -/
theorem c7_corrupt_record_amended_witness :
    findAttWithIdx
      [{ userId := "U1", name := "A", role := "student", date := 0,
         punchIn := none, punchOut := some 7, recordedAt := 7 }] "U1" 0 =
      some (0, { userId := "U1", name := "A", role := "student", date := 0,
                 punchIn := none, punchOut := some 7, recordedAt := 7 }) ∧
    v2Solo 60 [{ userId := "U1", name := "A", role := "student" }]
      { uid := "U1", tDate := 50, tNow := 50 }
      [{ userId := "U1", name := "A", role := "student", date := 0,
         punchIn := none, punchOut := some 7, recordedAt := 7 }] =
      ([{ userId := "U1", name := "A", role := "student", date := 0,
          punchIn := none, punchOut := some 7, recordedAt := 7 }],
       { code := 400, message := "Invalid attendance state" }) :=
  ⟨rfl,
   c7_corrupt_record_amended.1 60
     [{ userId := "U1", name := "A", role := "student" }]
     { userId := "U1", name := "A", role := "student" }
     { uid := "U1", tDate := 50, tNow := 50 }
     [{ userId := "U1", name := "A", role := "student", date := 0,
        punchIn := none, punchOut := some 7, recordedAt := 7 }]
     0
     { userId := "U1", name := "A", role := "student", date := 0,
       punchIn := none, punchOut := some 7, recordedAt := 7 }
     (by decide) rfl rfl rfl⟩

/-! ## Claim C8 -/

/-- C8 counterexample: in `part_004` an unknown `userId` does **not**
fail with an identity-not-found error — the `.catch(() => null)` lookup
result is never checked, so the call creates an attendance record (with
empty name/role) and reports a successful punch-in. -/
theorem c8_unknown_identity_counterexample :
    findUser [] "U404" = none ∧
    (handlerP4 60 [] { uid := "U404" } [100, 101] []).2.message =
      "Punched In Successfully" ∧
    (handlerP4 60 [] { uid := "U404" } [100, 101] []).1 =
      [{ userId := "U404", name := "", role := "", date := 0,
         punchInAt := some 101, punchIn := some 101 }] :=
  ⟨rfl, rfl, rfl⟩

/-- C8 amended: the three `submit-attendance.js` variants (V1, V2, V3)
answer 404 "User not found" for an unknown identity and leave the store
unchanged; the `part_004` variant performs no existence check and
creates a punch-in record with name/role resolved from the request body
or defaulted to the empty string. -/
theorem c8_unknown_identity_amended :
    (∀ (users : List UserRec) (uid : String) (tDate tNow : Nat)
       (store : List AttRec),
      uid ≠ "" → findUser users uid = none →
      handlerV1 users uid tDate tNow store =
        (store, { code := 404, message := "User not found" })) ∧
    (∀ (minI : Int) (users : List UserRec) (c : V2Call)
       (store : List AttRec),
      c.uid ≠ "" → findUser users c.uid = none →
      v2Solo minI users c store =
        (store, { code := 404, message := "User not found" })) ∧
    (∀ (minI : Int) (users : List UserRec) (c : V3Call)
       (store : List AttRec),
      c.uid ≠ "" → findUser users c.uid = none →
      v3Solo minI users c store =
        (store, { code := 404, message := "User not found" })) ∧
    (∀ (minRepeat : Int) (users : List UserRec) (req : P4Req)
       (t0 t1 : Nat) (clock : List Nat),
      req.uid ≠ "" → findUser users req.uid = none →
      handlerP4 minRepeat users req (t0 :: t1 :: clock) [] =
        ([p4NewRec req.uid (p4Resolve req.reqName none)
            (p4Resolve req.reqRole none) req.imageData (dayOf t0) t1],
         punchInRespP4 (p4NewRec req.uid (p4Resolve req.reqName none)
            (p4Resolve req.reqRole none) req.imageData (dayOf t0) t1))) := by
  refine ⟨?_, ?_, ?_, ?_⟩
  · intro users uid tDate tNow store huid huser
    simp [handlerV1, huid, huser]
  · intro minI users c store huid huser
    simp [v2Solo, v2Step, huid, huser]
  · intro minI users c store huid huser
    simp [v3Solo, v3Step, huid, huser]
  · intro minRepeat users req t0 t1 clock huid huser
    simp [handlerP4, findWithIdx, findWithIdxAux, huid, huser]

/-- Witness for C8's amended statement: concrete unknown identity
`U404` against the V2 handler — 404 and an unchanged (empty) store. -/
theorem c8_unknown_identity_amended_witness :
    findUser [] "U404" = none ∧
    v2Solo 60 [] { uid := "U404", tDate := 100, tNow := 100 } [] =
      ([], { code := 404, message := "User not found" }) :=
  ⟨rfl,
   c8_unknown_identity_amended.2.1 60 []
     { uid := "U404", tDate := 100, tNow := 100 } [] (by decide) rfl⟩

/-! ## Claim C9 -/

/-- C9 counterexample: `part_004` (and V1) read the clock again for each
timestamp instead of reusing one instant.  With the day-key read at
23:59:59 of day 0 and the punch-in read at 00:00:00 of day 1, the
created record's `punchInAt` lies on a different day than its `date`
key — the single-instant consistency the claim asserts fails. -/
theorem c9_single_instant_counterexample :
    (handlerP4 60 [{ userId := "U1", name := "Alice", role := "student" }]
      { uid := "U1" } [86399, 86400] []).1 =
      [{ userId := "U1", name := "Alice", role := "student", date := 0,
         punchInAt := some 86400, punchIn := some 0 }] ∧
    dayOf 86400 ≠ 0 ∧
    (handlerV1 [{ userId := "U1", name := "Alice", role := "student" }]
      "U1" 86399 86400 []).1 =
      [{ userId := "U1", name := "Alice", role := "student", date := 0,
         punchIn := some 0, punchOut := none, recordedAt := 86400 }] :=
  ⟨rfl, by decide, rfl⟩

/-- C9 amended: the handlers read the clock several times per operation
(part_004 uses separate reads for the day key, the punch-in timestamp,
the elapsed check and the punch-out timestamp), so the day key and the
written timestamps come from different instants.  The written record is
day-consistent only when those reads fall on the same day, and with a
monotone clock the punch-out instant part_004 writes is never earlier
than the instant its elapsed check used. -/
theorem c9_single_instant_amended :
    (∀ (minRepeat : Int) (users : List UserRec) (req : P4Req)
       (t0 t1 : Nat) (clock : List Nat),
      req.uid ≠ "" →
      ∃ r, (handlerP4 minRepeat users req (t0 :: t1 :: clock) []).1 = [r] ∧
        r.date = dayOf t0 ∧ r.punchInAt = some t1 ∧
        (dayOf t0 = dayOf t1 → r.date = dayOf t1)) ∧
    (∀ (minRepeat : Int) (users : List UserRec) (req : P4Req)
       (rec : P4Rec) (t0 t1 t2 : Nat) (inAt : Nat),
      req.uid ≠ "" → rec.userId = req.uid → rec.date = dayOf t0 →
      rec.punchInAt = some inAt → rec.punchIn.isSome →
      rec.punchOut = none →
      minRepeat ≤ ((t1 - inAt : Nat) : Int) → t1 ≤ t2 →
      ∃ v, (handlerP4 minRepeat users req [t0, t1, t2] [rec]).2.punchOutAt =
          some v ∧ t1 ≤ v) := by
  constructor
  · intro minRepeat users req t0 t1 clock huid
    refine ⟨p4NewRec req.uid
        (p4Resolve req.reqName ((findUser users req.uid).map (·.name)))
        (p4Resolve req.reqRole ((findUser users req.uid).map (·.role)))
        req.imageData (dayOf t0) t1, ?_, rfl, rfl, fun h => h⟩
    simp [handlerP4, findWithIdx, findWithIdxAux, huid]
  · intro minRepeat users req rec t0 t1 t2 inAt huid hu hd hinAt hin hout
      hge hmono
    refine ⟨t2, ?_, hmono⟩
    have hnl : ¬ (((t1 - inAt : Nat) : Int) < minRepeat) := by omega
    simp [handlerP4, findWithIdx, findWithIdxAux, huid, hu, hd, hinAt,
          hin, hout, hnl, outSuccessRespP4]

/-- Witness for C9's amended statement: a same-day clock pair yields a
day-consistent record, and a later punch-out read is not earlier than
the elapsed-check read. -/
theorem c9_single_instant_amended_witness :
    ("U1" : String) ≠ "" ∧
    (∃ r, (handlerP4 60 [] { uid := "U1" } [100, 101] []).1 = [r] ∧
      r.date = dayOf 100 ∧ r.punchInAt = some 101 ∧
      (dayOf 100 = dayOf 101 → r.date = dayOf 101)) :=
  ⟨by decide,
   c9_single_instant_amended.1 60 [] { uid := "U1" } 100 101 [] (by decide)⟩

/-! ## Claim C1 -/

/-- C1 counterexample: in the no-cooldown V1 handler a second call one
second after punch-in does not return the too-soon outcome — it punches
out immediately. -/
theorem c1_sequence_counterexample :
    (handlerV1 [{ userId := "U1", name := "Alice", role := "student" }]
      "U1" 100 100 []).2.message = "Punched In Successfully" ∧
    (handlerV1 [{ userId := "U1", name := "Alice", role := "student" }]
      "U1" 101 101
      (handlerV1 [{ userId := "U1", name := "Alice", role := "student" }]
        "U1" 100 100 []).1).2.message = "Punched Out Successfully" ∧
    outcomeOf (handlerV1
      [{ userId := "U1", name := "Alice", role := "student" }] "U1" 101 101
      (handlerV1 [{ userId := "U1", name := "Alice", role := "student" }]
        "U1" 100 100 []).1).2 ≠ Outcome.tooSoon :=
  ⟨rfl, rfl, by decide⟩

/-- Closed-record helper: once the day's record is punched out, every
further same-identity same-day V2 call answers Already Punched Out and
the predicted tail is all `alreadyPunchedOut`. -/
theorem runV2Seq_closed (minI : Int) (users : List UserRec)
    (user : UserRec) (u : String) (d : Nat) (rec : AttRec) (t0 : Nat)
    (hu : u ≠ "") (huser : findUser users u = some user)
    (hru : rec.userId = u) (hrd : rec.date = d)
    (hrin : rec.punchIn.isSome) (hrout : rec.punchOut.isSome) :
    ∀ cs : List V2Call, (∀ c ∈ cs, c.uid = u ∧ dayOf c.tDate = d) →
    (runV2Seq minI users cs [rec]).2.map outcomeOf =
      specPatternGo minI t0 true (cs.map (·.tNow)) := by
  intro cs
  induction cs with
  | nil => intro _; simp [runV2Seq, specPatternGo]
  | cons c cs ih =>
    intro hcs
    have hc := hcs c (List.mem_cons_self c cs)
    have hfind : findAttWithIdx [rec] c.uid (dayOf c.tDate) =
        some (0, rec) := by
      simp [findAttWithIdx, findWithIdx, findWithIdxAux, hc.1, hc.2, hru, hrd]
    have hstep := v2Solo_already minI users c [rec] user 0 rec
      (by rw [hc.1]; exact hu) (by rw [hc.1]; exact huser) hfind hrin hrout
    have hrest := ih fun c' hc' => hcs c' (List.mem_cons_of_mem c hc')
    simp [runV2Seq, hstep, hrest, specPatternGo, outcomeOf, alreadyOutRespV2]

/-- Open-record helper: with the day's record punched in at instant
`t0` and still open, the V2 responses to further same-identity same-day
calls follow the specification's pattern tail. -/
theorem runV2Seq_open (minI : Int) (users : List UserRec)
    (user : UserRec) (u : String) (d : Nat) (t0 : Nat) (rec : AttRec)
    (hu : u ≠ "") (huser : findUser users u = some user)
    (hru : rec.userId = u) (hrd : rec.date = d)
    (hrin : rec.punchIn = some (todOf t0)) (hrout : rec.punchOut = none)
    (ht0 : dayOf t0 = d) :
    ∀ cs : List V2Call, (∀ c ∈ cs, c.uid = u ∧ dayOf c.tDate = d) →
    (runV2Seq minI users cs [rec]).2.map outcomeOf =
      specPatternGo minI t0 false (cs.map (·.tNow)) := by
  intro cs
  induction cs generalizing rec with
  | nil => intro _; simp [runV2Seq, specPatternGo]
  | cons c cs ih =>
    intro hcs
    have hc := hcs c (List.mem_cons_self c cs)
    have hfind : findAttWithIdx [rec] c.uid (dayOf c.tDate) =
        some (0, rec) := by
      simp [findAttWithIdx, findWithIdx, findWithIdxAux, hc.1, hc.2, hru, hrd]
    have hmoment : (rec.date : Int) * 86400 + (todOf t0 : Nat) = (t0 : Int) := by
      have h2 : rec.date * 86400 + todOf t0 = t0 := by
        rw [hrd, ← ht0]
        simp only [dayOf, todOf]
        omega
      exact_mod_cast h2
    by_cases hlt : (c.tNow : Int) - t0 < minI
    · have hstep := v2Solo_tooSoon minI users c [rec] user 0 rec (todOf t0)
        (by rw [hc.1]; exact hu) (by rw [hc.1]; exact huser) hfind hrin hrout
        (by rw [hmoment]; exact hlt)
      have hrest := ih rec hru hrd hrin hrout
        fun c' hc' => hcs c' (List.mem_cons_of_mem c hc')
      simp [runV2Seq, hstep, hrest, specPatternGo, hlt, outcomeOf,
            tooSoonRespV2]
    · have hstep := v2Solo_punchOut minI users c [rec] user 0 rec (todOf t0)
        (by rw [hc.1]; exact hu) (by rw [hc.1]; exact huser) hfind hrin hrout
        (by rw [hmoment]; exact hlt)
      have hrest := runV2Seq_closed minI users user u d
        { rec with punchOut := some (todOf c.tNow) } t0 hu huser hru hrd
        (by simp [hrin]) (by simp) cs
        (fun c' hc' => hcs c' (List.mem_cons_of_mem c hc'))
      simp [runV2Seq, hstep, hrest, specPatternGo, hlt, outcomeOf,
            outSuccessRespV2]

/-- C1 amended: the claimed call-sequence behaviour — first call
punches in, each further same-day call answers too-soon while the
elapsed time is below the cooldown, the first call at or past the
cooldown punches out, and every later call answers already-punched-out
— holds for the cooldown-enforcing V2 handler; the no-cooldown variants
(V1 and part_005) instead punch out on the first repeated call no
matter how soon, as the counterexample shows. -/
theorem c1_sequence_amended (minI : Int) (users : List UserRec)
    (user : UserRec) (u : String) (d : Nat) (cs : List V2Call)
    (hu : u ≠ "") (huser : findUser users u = some user)
    (hcs : ∀ c ∈ cs, c.uid = u ∧ dayOf c.tDate = d ∧ dayOf c.tNow = d) :
    (runV2Seq minI users cs []).2.map outcomeOf =
      specOutcomePattern minI (cs.map (·.tNow)) := by
  cases cs with
  | nil => simp [runV2Seq, specOutcomePattern]
  | cons c0 cs =>
    have hc0 := hcs c0 (List.mem_cons_self c0 cs)
    have hfind : findAttWithIdx [] c0.uid (dayOf c0.tDate) = none := rfl
    have hstep := v2Solo_create minI users c0 [] user
      (by rw [hc0.1]; exact hu) (by rw [hc0.1]; exact huser) hfind
    have hrest := runV2Seq_open minI users user u d c0.tNow
      { userId := c0.uid, name := user.name, role := user.role,
        date := dayOf c0.tDate, punchIn := some (todOf c0.tNow),
        punchOut := none, recordedAt := c0.tNow }
      hu huser hc0.1 hc0.2.1 rfl rfl hc0.2.2 cs
      (fun c' hc' => ⟨(hcs c' (List.mem_cons_of_mem c0 hc')).1,
                      (hcs c' (List.mem_cons_of_mem c0 hc')).2.1⟩)
    simp [runV2Seq, hstep, specOutcomePattern, outcomeOf, punchInRespV2]
    simpa using hrest

/-- Witness for C1's amended statement: cooldown 60, calls at seconds
100, 130, 160 and 200 — punched-in, too-soon, punched-out,
already-punched-out. -/
theorem c1_sequence_amended_witness :
    (∀ c ∈ ([{ uid := "U1", tDate := 100, tNow := 100 },
             { uid := "U1", tDate := 130, tNow := 130 },
             { uid := "U1", tDate := 160, tNow := 160 },
             { uid := "U1", tDate := 200, tNow := 200 }] : List V2Call),
        c.uid = "U1" ∧ dayOf c.tDate = 0 ∧ dayOf c.tNow = 0) ∧
    (runV2Seq 60 [{ userId := "U1", name := "Alice", role := "student" }]
      [{ uid := "U1", tDate := 100, tNow := 100 },
       { uid := "U1", tDate := 130, tNow := 130 },
       { uid := "U1", tDate := 160, tNow := 160 },
       { uid := "U1", tDate := 200, tNow := 200 }] []).2.map outcomeOf =
      specOutcomePattern 60 [100, 130, 160, 200] :=
  ⟨by decide,
   c1_sequence_amended 60
     [{ userId := "U1", name := "Alice", role := "student" }]
     { userId := "U1", name := "Alice", role := "student" } "U1" 0
     [{ uid := "U1", tDate := 100, tNow := 100 },
      { uid := "U1", tDate := 130, tNow := 130 },
      { uid := "U1", tDate := 160, tNow := 160 },
      { uid := "U1", tDate := 200, tNow := 200 }]
     (by decide) rfl (by decide)⟩

/-! ## Equation lemmas for the V3 machine -/

theorem findAttWithIdx_singleton (r : AttRec) (u : String) (d : Nat)
    (hru : r.userId = u) (hrd : r.date = d) :
    findAttWithIdx [r] u d = some (0, r) := by
  simp [findAttWithIdx, findWithIdx, findWithIdxAux, hru, hrd]

theorem v3Step_start_empty (minI : Int) (users : List UserRec)
    (c : V3Call) (user : UserRec)
    (huid : c.uid ≠ "") (huser : findUser users c.uid = some user) :
    v3Step minI users c [] .start =
      ([{ userId := c.uid, name := user.name, role := user.role,
          date := dayOf c.t, punchIn := some (todOf c.t),
          punchOut := none, recordedAt := c.t }],
       .done (punchInRespV3
         { userId := c.uid, name := user.name, role := user.role,
           date := dayOf c.t, punchIn := some (todOf c.t),
           punchOut := none, recordedAt := c.t })) := by
  simp [v3Step, upsertV3, huid, huser, findAttWithIdx, findWithIdx,
        findWithIdxAux]

theorem v3Step_start_already (minI : Int) (users : List UserRec)
    (c : V3Call) (store : List AttRec) (user : UserRec) (idx : Nat)
    (rec : AttRec)
    (huid : c.uid ≠ "") (huser : findUser users c.uid = some user)
    (hfind : findAttWithIdx store c.uid (dayOf c.t) = some (idx, rec))
    (hin : rec.punchIn.isSome) (hout : rec.punchOut.isSome) :
    v3Step minI users c store .start =
      (store, .done (alreadyOutRespV3 rec)) := by
  simp [v3Step, upsertV3, huid, huser, hfind, hin, hout]

theorem v3Step_start_tooSoon (minI : Int) (users : List UserRec)
    (c : V3Call) (store : List AttRec) (user : UserRec) (idx : Nat)
    (rec : AttRec) (p : Nat)
    (huid : c.uid ≠ "") (huser : findUser users c.uid = some user)
    (hfind : findAttWithIdx store c.uid (dayOf c.t) = some (idx, rec))
    (hin : rec.punchIn = some p) (hout : rec.punchOut = none)
    (hlt : (c.t : Int) - (rec.date * 86400 + p) < minI) :
    v3Step minI users c store .start =
      (store, .done (tooSoonRespV2 (some p)
        ((c.t : Int) - (rec.date * 86400 + p)) minI)) := by
  simp [v3Step, upsertV3, huid, huser, hfind, hin, hout, hlt]

theorem v3Step_start_cool (minI : Int) (users : List UserRec)
    (c : V3Call) (store : List AttRec) (user : UserRec) (idx : Nat)
    (rec : AttRec) (p : Nat)
    (huid : c.uid ≠ "") (huser : findUser users c.uid = some user)
    (hfind : findAttWithIdx store c.uid (dayOf c.t) = some (idx, rec))
    (hin : rec.punchIn = some p) (hout : rec.punchOut = none)
    (hge : ¬ (c.t : Int) - (rec.date * 86400 + p) < minI) :
    v3Step minI users c store .start = (store, .needCond idx) := by
  simp [v3Step, upsertV3, huid, huser, hfind, hin, hout, hge]

theorem v3Step_needCond_open (minI : Int) (users : List UserRec)
    (c : V3Call) (store : List AttRec) (idx : Nat) (r : AttRec)
    (hget : store[idx]? = some r) (hout : r.punchOut = none) :
    v3Step minI users c store (.needCond idx) =
      (store.set idx { r with punchOut := some (todOf c.t),
                              recordedAt := c.t },
       .done (outSuccessRespV3 { r with punchOut := some (todOf c.t),
                                        recordedAt := c.t })) := by
  simp [v3Step, condPunchOutV3, hget, hout]

theorem v3Step_needCond_closed (minI : Int) (users : List UserRec)
    (c : V3Call) (store : List AttRec) (idx : Nat) (r : AttRec)
    (hget : store[idx]? = some r) (hout : r.punchOut.isSome) :
    v3Step minI users c store (.needCond idx) = (store, .needRead idx) := by
  have hne : ¬ r.punchOut = none := by
    cases h : r.punchOut <;> simp_all
  simp [v3Step, condPunchOutV3, hget, hne]

theorem v3Step_needRead_closed (minI : Int) (users : List UserRec)
    (c : V3Call) (store : List AttRec) (idx : Nat) (r : AttRec)
    (hget : store[idx]? = some r) (hout : r.punchOut.isSome) :
    v3Step minI users c store (.needRead idx) =
      (store, .done (byOtherRespV3 r)) := by
  simp [v3Step, readById, hget, hout]

/-! ## V3 invariant: initialisation and preservation -/

theorem v3Inv_init (u : String) (d : Nat) (calls : List V3Call) :
    V3Inv u d calls ⟨[], List.replicate calls.length .start⟩ := by
  refine ⟨by simp, Or.inl rfl, ?_, ?_, ?_, ?_, ?_, ?_, ?_⟩
  · intro _ ph hph
    exact List.eq_of_mem_replicate hph
  · simp [List.countP_eq_zero, isDonePunchedInV3]
  · intro j idx hj
    rcases hj with hj | hj <;>
    · have := List.getElem?_mem hj
      have := List.eq_of_mem_replicate this
      simp_all
  · intro j idx hj
    have := List.eq_of_mem_replicate (List.getElem?_mem hj)
    simp_all
  · intro j resp hj
    have := List.eq_of_mem_replicate (List.getElem?_mem hj)
    simp_all
  · simp [storeClosed, List.countP_eq_zero, isDoneOutSuccessV3]
  · intro j resp hj _
    have := List.eq_of_mem_replicate (List.getElem?_mem hj)
    simp_all

theorem v3Step_preserves (minI : Int) (users : List UserRec)
    (user : UserRec) (u : String) (d : Nat) (calls : List V3Call)
    (hu : u ≠ "") (huser : findUser users u = some user)
    (hcalls : ∀ c ∈ calls, c.uid = u ∧ dayOf c.t = d)
    (store : List AttRec) (phases : List V3Phase)
    (hInv : V3Inv u d calls ⟨store, phases⟩)
    (i : Nat) (c : V3Call) (ph : V3Phase)
    (hci : calls[i]? = some c) (hpi : phases[i]? = some ph) :
    V3Inv u d calls
      ⟨(v3Step minI users c store ph).1,
       phases.set i (v3Step minI users c store ph).2⟩ := by
  obtain ⟨hlen, hshape, hstart, hinc, hpend, hreadc, hdone, houtc, hbyOth⟩ := hInv
  dsimp only at hlen hshape hstart hinc hpend hreadc hdone houtc hbyOth
  have hcu : c.uid = u := (hcalls c (List.getElem?_mem hci)).1
  have hcd : dayOf c.t = d := (hcalls c (List.getElem?_mem hci)).2
  have hcu' : c.uid ≠ "" := by rw [hcu]; exact hu
  have huser' : findUser users c.uid = some user := by rw [hcu]; exact huser
  have hilen : i < phases.length := by
    by_contra hcon
    push_neg at hcon
    rw [List.getElem?_eq_none hcon] at hpi
    exact absurd hpi (by simp)
  have hset_i : ∀ x : V3Phase, (phases.set i x)[i]? = some x :=
    fun x => List.getElem?_set_self hilen
  have hset_ne : ∀ (x : V3Phase) (j : Nat), j ≠ i →
      (phases.set i x)[j]? = phases[j]? :=
    fun x j hj => List.getElem?_set_ne (Ne.symm hj)
  have hcount : ∀ (x : V3Phase) (p : V3Phase → Bool),
      (phases.set i x).countP p + (if p ph then 1 else 0) =
        phases.countP p + (if p x then 1 else 0) :=
    fun x p => countP_set_shift p phases i ph x hpi
  cases ph with
  | done r0 =>
    show V3Inv u d calls ⟨store, phases.set i (V3Phase.done r0)⟩
    rw [set_self_of_getElem? phases i _ hpi]
    exact ⟨hlen, hshape, hstart, hinc, hpend, hreadc, hdone, houtc, hbyOth⟩
  | start =>
    rcases hshape with hemp | ⟨r, hsr, hru, hrd, hrin⟩
    · subst hemp
      have hstep := v3Step_start_empty minI users c user hcu' huser'
      rw [hstep]
      dsimp only
      set rec0 : AttRec :=
        { userId := c.uid, name := user.name, role := user.role,
          date := dayOf c.t, punchIn := some (todOf c.t),
          punchOut := none, recordedAt := c.t } with hrec0
      have hallstart := hstart rfl
      refine ⟨by simpa using hlen, ?_, ?_, ?_, ?_, ?_, ?_, ?_, ?_⟩
      · exact Or.inr ⟨rec0, rfl, by simp [hrec0, hcu], by simp [hrec0, hcd],
          by simp [hrec0]⟩
      · intro h; exact absurd h (by simp)
      · dsimp only
        rw [countP_set_incr isDonePunchedInV3 phases i _ _ hpi rfl
          (by simp [isDonePunchedInV3, punchInRespV3])]
        have h1 : List.countP isDonePunchedInV3 phases = 0 := by
          simpa using hinc
        rw [h1]
        simp
      · intro j idx hj
        by_cases hji : j = i
        · subst hji
          rw [hset_i] at hj
          rcases hj with hj | hj <;> exact absurd hj (by simp)
        · rw [hset_ne _ j hji] at hj
          rcases hj with hj | hj <;>
          · have hm := hallstart _ (List.getElem?_mem hj)
            exact absurd hm (by simp)
      · intro j idx hj
        by_cases hji : j = i
        · subst hji; rw [hset_i] at hj; exact absurd hj (by simp)
        · rw [hset_ne _ j hji] at hj
          have hm := hallstart _ (List.getElem?_mem hj)
          exact absurd hm (by simp)
      · intro j resp hj
        by_cases hji : j = i
        · subst hji
          rw [hset_i] at hj
          have hresp : resp = punchInRespV3 rec0 := by
            simpa using hj.symm
          subst hresp
          refine ⟨rfl, rec0, rfl, rfl, ?_⟩
          intro hsome
          simp [punchInRespV3] at hsome
        · rw [hset_ne _ j hji] at hj
          have hm := hallstart _ (List.getElem?_mem hj)
          exact absurd hm (by simp)
      · dsimp only
        rw [countP_set_same isDoneOutSuccessV3 phases i _ _ hpi
          (by simp [isDoneOutSuccessV3, punchInRespV3])]
        rw [houtc]
        simp [storeClosed, hrec0]
      · intro j resp hj hb
        by_cases hji : j = i
        · subst hji
          rw [hset_i] at hj
          have hresp : resp = punchInRespV3 rec0 := by simpa using hj.symm
          subst hresp
          simp [isDoneByOtherV3, punchInRespV3] at hb
        · rw [hset_ne _ j hji] at hj
          have hm := hallstart _ (List.getElem?_mem hj)
          exact absurd hm (by simp)
    · have hfind : findAttWithIdx store c.uid (dayOf c.t) = some (0, r) := by
        rw [hcu, hcd, hsr]
        exact findAttWithIdx_singleton r u d hru hrd
      cases hpo : r.punchOut with
      | some v =>
        have hstep := v3Step_start_already minI users c store user 0 r
          hcu' huser' hfind hrin (by simp [hpo])
        rw [hstep]
        dsimp only
        refine ⟨by simpa using hlen, Or.inr ⟨r, hsr, hru, hrd, hrin⟩, ?_,
          ?_, ?_, ?_, ?_, ?_, ?_⟩
        · intro h; rw [hsr] at h; exact absurd h (by simp)
        · dsimp only
          rw [countP_set_same isDonePunchedInV3 phases i _ _ hpi
            (by simp [isDonePunchedInV3, alreadyOutRespV3])]
          exact hinc
        · intro j idx hj
          by_cases hji : j = i
          · subst hji; rw [hset_i] at hj
            rcases hj with hj | hj <;> exact absurd hj (by simp)
          · rw [hset_ne _ j hji] at hj; exact hpend j idx hj
        · intro j idx hj
          by_cases hji : j = i
          · subst hji; rw [hset_i] at hj; exact absurd hj (by simp)
          · rw [hset_ne _ j hji] at hj; exact hreadc j idx hj
        · intro j resp hj
          by_cases hji : j = i
          · subst hji
            rw [hset_i] at hj
            have hresp : resp = alreadyOutRespV3 r := by simpa using hj.symm
            subst hresp
            exact ⟨rfl, r, hsr, rfl, fun _ => rfl⟩
          · rw [hset_ne _ j hji] at hj; exact hdone j resp hj
        · dsimp only
          rw [countP_set_same isDoneOutSuccessV3 phases i _ _ hpi
            (by simp [isDoneOutSuccessV3, alreadyOutRespV3])]
          exact houtc
        · intro j resp hj hb
          by_cases hji : j = i
          · subst hji
            rw [hset_i] at hj
            have hresp : resp = alreadyOutRespV3 r := by simpa using hj.symm
            subst hresp
            simp [isDoneByOtherV3, alreadyOutRespV3] at hb
          · rw [hset_ne _ j hji] at hj
            exact hbyOth j resp hj hb
      | none =>
        obtain ⟨p, hp⟩ := Option.isSome_iff_exists.mp hrin
        by_cases hlt : (c.t : Int) - (r.date * 86400 + p) < minI
        · have hstep := v3Step_start_tooSoon minI users c store user 0 r p
            hcu' huser' hfind hp hpo hlt
          rw [hstep]
          dsimp only
          refine ⟨by simpa using hlen, Or.inr ⟨r, hsr, hru, hrd, hrin⟩, ?_,
            ?_, ?_, ?_, ?_, ?_, ?_⟩
          · intro h; rw [hsr] at h; exact absurd h (by simp)
          · dsimp only
            rw [countP_set_same isDonePunchedInV3 phases i _ _ hpi
              (by simp [isDonePunchedInV3, tooSoonRespV2])]
            exact hinc
          · intro j idx hj
            by_cases hji : j = i
            · subst hji; rw [hset_i] at hj
              rcases hj with hj | hj <;> exact absurd hj (by simp)
            · rw [hset_ne _ j hji] at hj; exact hpend j idx hj
          · intro j idx hj
            by_cases hji : j = i
            · subst hji; rw [hset_i] at hj; exact absurd hj (by simp)
            · rw [hset_ne _ j hji] at hj; exact hreadc j idx hj
          · intro j resp hj
            by_cases hji : j = i
            · subst hji
              rw [hset_i] at hj
              have hresp : resp = tooSoonRespV2 (some p)
                  ((c.t : Int) - (r.date * 86400 + p)) minI := by
                simpa using hj.symm
              subst hresp
              refine ⟨rfl, r, hsr, by simp [tooSoonRespV2, hp], ?_⟩
              intro hsome
              simp [tooSoonRespV2] at hsome
            · rw [hset_ne _ j hji] at hj; exact hdone j resp hj
          · dsimp only
            rw [countP_set_same isDoneOutSuccessV3 phases i _ _ hpi
              (by simp [isDoneOutSuccessV3, tooSoonRespV2])]
            exact houtc
          · intro j resp hj hb
            by_cases hji : j = i
            · subst hji
              rw [hset_i] at hj
              have hresp : resp = tooSoonRespV2 (some p)
                  ((c.t : Int) - (r.date * 86400 + p)) minI := by
                simpa using hj.symm
              subst hresp
              simp [isDoneByOtherV3, tooSoonRespV2] at hb
            · rw [hset_ne _ j hji] at hj
              exact hbyOth j resp hj hb
        · have hstep := v3Step_start_cool minI users c store user 0 r p
            hcu' huser' hfind hp hpo hlt
          rw [hstep]
          dsimp only
          refine ⟨by simpa using hlen, Or.inr ⟨r, hsr, hru, hrd, hrin⟩, ?_,
            ?_, ?_, ?_, ?_, ?_, ?_⟩
          · intro h; rw [hsr] at h; exact absurd h (by simp)
          · dsimp only
            rw [countP_set_same isDonePunchedInV3 phases i V3Phase.start
              (V3Phase.needCond 0) hpi rfl]
            exact hinc
          · intro j idx hj
            by_cases hji : j = i
            · subst hji; rw [hset_i] at hj
              rcases hj with hj | hj
              · simp at hj; omega
              · exact absurd hj (by simp)
            · rw [hset_ne _ j hji] at hj; exact hpend j idx hj
          · intro j idx hj
            by_cases hji : j = i
            · subst hji; rw [hset_i] at hj; exact absurd hj (by simp)
            · rw [hset_ne _ j hji] at hj; exact hreadc j idx hj
          · intro j resp hj
            by_cases hji : j = i
            · subst hji; rw [hset_i] at hj; exact absurd hj (by simp)
            · rw [hset_ne _ j hji] at hj; exact hdone j resp hj
          · dsimp only
            rw [countP_set_same isDoneOutSuccessV3 phases i V3Phase.start
              (V3Phase.needCond 0) hpi rfl]
            exact houtc
          · intro j resp hj hb
            by_cases hji : j = i
            · subst hji
              rw [hset_i] at hj
              exact absurd hj (by simp)
            · rw [hset_ne _ j hji] at hj
              exact hbyOth j resp hj hb
  | needCond idx =>
    have hidx : idx = 0 := hpend i idx (Or.inl hpi)
    subst hidx
    have hsne : store ≠ [] := by
      intro hemp
      have := hstart hemp _ (List.getElem?_mem hpi)
      exact absurd this (by simp)
    rcases hshape with hemp | ⟨r, hsr, hru, hrd, hrin⟩
    · exact absurd hemp hsne
    have hget : store[0]? = some r := by rw [hsr]; rfl
    cases hpo : r.punchOut with
    | none =>
      have hstep := v3Step_needCond_open minI users c store 0 r hget hpo
      rw [hstep]
      dsimp only
      set r' : AttRec := { r with punchOut := some (todOf c.t),
                                  recordedAt := c.t } with hr'
      have hstore' : store.set 0 r' = [r'] := by rw [hsr]; rfl
      rw [hstore']
      refine ⟨by simpa using hlen, Or.inr ⟨r', rfl, by simp [hr', hru],
        by simp [hr', hrd], by simp [hr', hrin]⟩, ?_, ?_, ?_, ?_, ?_, ?_, ?_⟩
      · intro h; exact absurd h (by simp)
      · dsimp only
        rw [countP_set_same isDonePunchedInV3 phases i _ _ hpi
          (by simp [isDonePunchedInV3, outSuccessRespV3])]
        rw [hsr] at hinc
        simpa using hinc
      · intro j idx' hj
        by_cases hji : j = i
        · subst hji; rw [hset_i] at hj
          rcases hj with hj | hj <;> exact absurd hj (by simp)
        · rw [hset_ne _ j hji] at hj; exact hpend j idx' hj
      · intro j idx' hj
        by_cases hji : j = i
        · subst hji; rw [hset_i] at hj; exact absurd hj (by simp)
        · rw [hset_ne _ j hji] at hj
          obtain ⟨rr, hrr, hrrout⟩ := hreadc j idx' hj
          rw [hsr] at hrr
          have : rr = r := by simpa using hrr.symm
          subst this
          rw [hpo] at hrrout
          exact absurd hrrout (by simp)
      · intro j resp hj
        by_cases hji : j = i
        · subst hji
          rw [hset_i] at hj
          have hresp : resp = outSuccessRespV3 r' := by simpa using hj.symm
          subst hresp
          exact ⟨rfl, r', rfl, by simp [outSuccessRespV3, hr'],
            fun _ => by simp [outSuccessRespV3]⟩
        · rw [hset_ne _ j hji] at hj
          obtain ⟨hcode, rr, hrr, hpin, hpout⟩ := hdone j resp hj
          rw [hsr] at hrr
          have : rr = r := by simpa using hrr.symm
          subst this
          refine ⟨hcode, r', rfl, by simp [hr']; exact hpin, ?_⟩
          intro hsome
          have := hpout hsome
          rw [hpo] at this
          rw [this] at hsome
          exact absurd hsome (by simp)
      · dsimp only
        rw [countP_set_incr isDoneOutSuccessV3 phases i _ _ hpi rfl
          (by simp [isDoneOutSuccessV3, outSuccessRespV3])]
        have h0 : phases.countP isDoneOutSuccessV3 = 0 := by
          rw [houtc, hsr]
          simp [storeClosed, hpo]
        rw [h0]
        simp [storeClosed, hr']
      · intro j resp hj hb
        by_cases hji : j = i
        · subst hji
          rw [hset_i] at hj
          have hresp : resp = outSuccessRespV3 r' := by simpa using hj.symm
          subst hresp
          simp [isDoneByOtherV3, outSuccessRespV3] at hb
        · rw [hset_ne _ j hji] at hj
          exact hbyOth j resp hj hb
    | some v =>
      have hstep := v3Step_needCond_closed minI users c store 0 r hget
        (by simp [hpo])
      rw [hstep]
      dsimp only
      refine ⟨by simpa using hlen, Or.inr ⟨r, hsr, hru, hrd, hrin⟩, ?_,
        ?_, ?_, ?_, ?_, ?_, ?_⟩
      · intro h; exact absurd h hsne
      · dsimp only
        rw [countP_set_same isDonePunchedInV3 phases i (V3Phase.needCond 0)
          (V3Phase.needRead 0) hpi rfl]
        exact hinc
      · intro j idx' hj
        by_cases hji : j = i
        · subst hji; rw [hset_i] at hj
          rcases hj with hj | hj
          · exact absurd hj (by simp)
          · simp at hj; omega
        · rw [hset_ne _ j hji] at hj; exact hpend j idx' hj
      · intro j idx' hj
        by_cases hji : j = i
        · subst hji
          exact ⟨r, hsr, by simp [hpo]⟩
        · rw [hset_ne _ j hji] at hj; exact hreadc j idx' hj
      · intro j resp hj
        by_cases hji : j = i
        · subst hji; rw [hset_i] at hj; exact absurd hj (by simp)
        · rw [hset_ne _ j hji] at hj; exact hdone j resp hj
      · dsimp only
        rw [countP_set_same isDoneOutSuccessV3 phases i (V3Phase.needCond 0)
          (V3Phase.needRead 0) hpi rfl]
        exact houtc
      · intro j resp hj hb
        by_cases hji : j = i
        · subst hji
          rw [hset_i] at hj
          exact absurd hj (by simp)
        · rw [hset_ne _ j hji] at hj
          exact hbyOth j resp hj hb
  | needRead idx =>
    have hidx : idx = 0 := hpend i idx (Or.inr hpi)
    subst hidx
    obtain ⟨r, hsr, hrout⟩ := hreadc i 0 hpi
    have hget : store[0]? = some r := by rw [hsr]; rfl
    have hstep := v3Step_needRead_closed minI users c store 0 r hget hrout
    rw [hstep]
    dsimp only
    rcases hshape with hemp | ⟨rr, hrr, hrru, hrrd, hrrin⟩
    · rw [hemp] at hsr
      exact absurd hsr (by simp)
    have hrreq : r = rr := by
      rw [hsr] at hrr
      simpa using hrr
    subst hrreq
    refine ⟨by simpa using hlen, Or.inr ⟨r, hsr, hrru, hrrd, hrrin⟩, ?_,
      ?_, ?_, ?_, ?_, ?_, ?_⟩
    · intro h; rw [hsr] at h; exact absurd h (by simp)
    · dsimp only
      rw [countP_set_same isDonePunchedInV3 phases i _ _ hpi
        (by simp [isDonePunchedInV3, byOtherRespV3])]
      exact hinc
    · intro j idx' hj
      by_cases hji : j = i
      · subst hji; rw [hset_i] at hj
        rcases hj with hj | hj <;> exact absurd hj (by simp)
      · rw [hset_ne _ j hji] at hj; exact hpend j idx' hj
    · intro j idx' hj
      by_cases hji : j = i
      · subst hji; rw [hset_i] at hj; exact absurd hj (by simp)
      · rw [hset_ne _ j hji] at hj; exact hreadc j idx' hj
    · intro j resp hj
      by_cases hji : j = i
      · subst hji
        rw [hset_i] at hj
        have hresp : resp = byOtherRespV3 r := by simpa using hj.symm
        subst hresp
        exact ⟨rfl, r, hsr, rfl, fun _ => rfl⟩
      · rw [hset_ne _ j hji] at hj; exact hdone j resp hj
    · dsimp only
      rw [countP_set_same isDoneOutSuccessV3 phases i _ _ hpi
        (by simp [isDoneOutSuccessV3, byOtherRespV3])]
      exact houtc
    · intro j resp hj hb
      by_cases hji : j = i
      · subst hji
        rw [hset_i] at hj
        have hresp : resp = byOtherRespV3 r := by simpa using hj.symm
        subst hresp
        simpa [byOtherRespV3] using hrout
      · rw [hset_ne _ j hji] at hj
        exact hbyOth j resp hj hb

theorem v3Run_inv (minI : Int) (users : List UserRec) (user : UserRec)
    (u : String) (d : Nat) (calls : List V3Call)
    (hu : u ≠ "") (huser : findUser users u = some user)
    (hcalls : ∀ c ∈ calls, c.uid = u ∧ dayOf c.t = d) :
    ∀ (sched : List Nat) (s : MState V3Phase), V3Inv u d calls s →
    V3Inv u d calls (runSched
      (fun i store ph =>
        match calls[i]? with
        | some c => v3Step minI users c store ph
        | none => (store, ph)) sched s) := by
  intro sched
  induction sched with
  | nil => intro s h; exact h
  | cons i rest ih =>
    intro s hs
    rw [runSched]
    cases hpi : s.phases[i]? with
    | none => exact ih s hs
    | some ph =>
      cases hci : calls[i]? with
      | none =>
        have h1 : i < s.phases.length := by
          by_contra hcon
          push_neg at hcon
          rw [List.getElem?_eq_none hcon] at hpi
          exact absurd hpi (by simp)
        have h2 : calls.length ≤ i := List.getElem?_eq_none_iff.mp hci
        rw [hs.len] at h1
        omega
      | some c =>
        apply ih
        exact v3Step_preserves minI users user u d calls hu huser hcalls
          s.store s.phases hs i c ph hci hpi

theorem v3Exec_inv (minI : Int) (users : List UserRec) (user : UserRec)
    (u : String) (d : Nat) (calls : List V3Call) (sched : List Nat)
    (hu : u ≠ "") (huser : findUser users u = some user)
    (hcalls : ∀ c ∈ calls, c.uid = u ∧ dayOf c.t = d) :
    V3Inv u d calls (v3Exec minI users calls [] sched) :=
  v3Run_inv minI users user u d calls hu huser hcalls sched
    ⟨[], List.replicate calls.length .start⟩ (v3Inv_init u d calls)

/-! ## Claim C3 -/

/-- C3 counterexample: the `findOne`-then-`save` creation (V1/V2) is a
read-then-write pair, not an atomic insert-if-absent.  Two interleaved
first punches for the same identity/day both observe "no record", both
insert, and both answer Punched In — leaving two records for the pair. -/
theorem c3_duplicate_record_counterexample :
    ((v2Exec 60 [{ userId := "U1", name := "Alice", role := "student" }]
        [{ uid := "U1", tDate := 100, tNow := 100 },
         { uid := "U1", tDate := 100, tNow := 100 }] []
        [0, 1, 0, 1]).store.countP
      (fun r => r.userId = "U1" ∧ r.date = 0)) = 2 ∧
    ((v2Exec 60 [{ userId := "U1", name := "Alice", role := "student" }]
        [{ uid := "U1", tDate := 100, tNow := 100 },
         { uid := "U1", tDate := 100, tNow := 100 }] []
        [0, 1, 0, 1]).phases.countP isDonePunchedInV2) = 2 := by
  constructor <;> rfl

/-- C3 amended: the per-(identity, day) uniqueness holds for the
variant whose creation is the atomic `$setOnInsert` upsert (V3): under
any interleaving of same-identity same-day calls from an empty store,
at most one record ever exists.  The `findOne`-then-`save` variants
(V1/V2/part_004) can create duplicates under the interleaving shown in
the counterexample. -/
theorem c3_at_most_one_record_amended (minI : Int) (users : List UserRec)
    (user : UserRec) (u : String) (d : Nat) (calls : List V3Call)
    (sched : List Nat)
    (hu : u ≠ "") (huser : findUser users u = some user)
    (hcalls : ∀ c ∈ calls, c.uid = u ∧ dayOf c.t = d) :
    (v3Exec minI users calls [] sched).store.length ≤ 1 ∧
    (v3Exec minI users calls [] sched).store.countP
      (fun r => r.userId = u ∧ r.date = d) ≤ 1 := by
  have hInv := v3Exec_inv minI users user u d calls sched hu huser hcalls
  rcases hInv.shape with hemp | ⟨r, hr, _, _, _⟩
  · rw [hemp]; simp
  · rw [hr]
    constructor
    · simp
    · simp [List.countP_cons]
      split <;> simp

/-- Witness for C3's amended statement: two interleaved V3 calls still
leave at most one record. -/
theorem c3_at_most_one_record_amended_witness :
    (v3Exec 60 [{ userId := "U1", name := "Alice", role := "student" }]
      [{ uid := "U1", t := 100 }, { uid := "U1", t := 100 }] []
      [0, 1, 0, 1]).store.length ≤ 1 :=
  (c3_at_most_one_record_amended 60
    [{ userId := "U1", name := "Alice", role := "student" }]
    { userId := "U1", name := "Alice", role := "student" } "U1" 0
    [{ uid := "U1", t := 100 }, { uid := "U1", t := 100 }] [0, 1, 0, 1]
    (by decide) rfl (by decide)).1

/-! ## Claim C2 -/

/-- C2: for a single identity/day, under any interleaving of V3 calls
(the variant using the two atomic conditional primitives) from an empty
store, the writers are totally ordered: exactly one call reports the
punch-in (it performed the insert), at most one conditional punch-out
update wins — exactly one as soon as any call reports a punch-out —
and every finished call answers 200 reporting the persisted record's
timestamps rather than erroring. -/
theorem c2_conditional_primitives_total_order
    (minI : Int) (users : List UserRec) (user : UserRec) (u : String)
    (d : Nat) (calls : List V3Call) (sched : List Nat)
    (hu : u ≠ "") (huser : findUser users u = some user)
    (hcalls : ∀ c ∈ calls, c.uid = u ∧ dayOf c.t = d)
    (hne : calls ≠ [])
    (hcomplete : ∀ ph ∈ (v3Exec minI users calls [] sched).phases,
      isDoneV3 ph = true) :
    ∃ r, (v3Exec minI users calls [] sched).store = [r] ∧
      (v3Exec minI users calls [] sched).phases.countP isDonePunchedInV3 = 1 ∧
      (v3Exec minI users calls [] sched).phases.countP isDoneOutSuccessV3 ≤ 1 ∧
      (∀ (j : Nat) (resp : Response),
        (v3Exec minI users calls [] sched).phases[j]? =
            some (V3Phase.done resp) →
        resp.code = 200 ∧ resp.punchIn = r.punchIn ∧
          (resp.punchOut.isSome → resp.punchOut = r.punchOut)) ∧
      ((∃ (j : Nat) (resp : Response),
          (v3Exec minI users calls [] sched).phases[j]? =
              some (V3Phase.done resp) ∧
          (isDoneOutSuccessV3 (V3Phase.done resp) ∨
           isDoneByOtherV3 (V3Phase.done resp))) →
        (v3Exec minI users calls [] sched).phases.countP
          isDoneOutSuccessV3 = 1) := by
  have hInv := v3Exec_inv minI users user u d calls sched hu huser hcalls
  have hlen0 : 0 < (v3Exec minI users calls [] sched).phases.length := by
    rw [hInv.len]
    exact List.length_pos.mpr hne
  have hsne : (v3Exec minI users calls [] sched).store ≠ [] := by
    intro hemp
    have hph0 := hInv.startOnly hemp
      ((v3Exec minI users calls [] sched).phases[0]) (List.getElem_mem hlen0)
    have hd0 := hcomplete ((v3Exec minI users calls [] sched).phases[0])
      (List.getElem_mem hlen0)
    rw [hph0] at hd0
    exact absurd hd0 (by simp [isDoneV3])
  rcases hInv.shape with hemp | ⟨r, hr, _, _, _⟩
  · exact absurd hemp hsne
  refine ⟨r, hr, ?_, ?_, ?_, ?_⟩
  · rw [hInv.inCount, hr]
    rfl
  · rw [hInv.outCount]
    split <;> simp
  · intro j resp hj
    obtain ⟨hcode, rr, hrr, hpin, hpout⟩ := hInv.doneOk j resp hj
    rw [hr] at hrr
    have : rr = r := by simpa using hrr.symm
    subst this
    exact ⟨hcode, hpin, hpout⟩
  · rintro ⟨j, resp, hj, hout | hby⟩
    · have hpos : 0 < (v3Exec minI users calls [] sched).phases.countP
          isDoneOutSuccessV3 :=
        List.countP_pos_iff.mpr ⟨V3Phase.done resp, List.getElem?_mem hj, hout⟩
      rw [hInv.outCount] at hpos ⊢
      split at hpos
      · rename_i hcl
        simp [hcl]
      · omega
    · have hsome := hInv.byOtherSome j resp hj hby
      obtain ⟨hcode, rr, hrr, hpin, hpout⟩ := hInv.doneOk j resp hj
      rw [hr] at hrr
      have heq : r = rr := by simpa using hrr
      subst heq
      have hrout : r.punchOut.isSome := by
        rw [← hpout hsome]
        exact hsome
      rw [hInv.outCount, hr]
      simp [storeClosed, hrout]

/-- Witness for C2: two interleaved V3 calls for `U1` from an empty
store — one insert wins and every call finishes with 200. -/
theorem c2_conditional_primitives_total_order_witness :
    (([{ uid := "U1", t := 100 }, { uid := "U1", t := 100 }] :
        List V3Call) ≠ []) ∧
    (∀ ph ∈ (v3Exec 60
        [{ userId := "U1", name := "Alice", role := "student" }]
        [{ uid := "U1", t := 100 }, { uid := "U1", t := 100 }] []
        [0, 1]).phases, isDoneV3 ph = true) ∧
    (∃ r, (v3Exec 60
        [{ userId := "U1", name := "Alice", role := "student" }]
        [{ uid := "U1", t := 100 }, { uid := "U1", t := 100 }] []
        [0, 1]).store = [r] ∧
      (v3Exec 60 [{ userId := "U1", name := "Alice", role := "student" }]
        [{ uid := "U1", t := 100 }, { uid := "U1", t := 100 }] []
        [0, 1]).phases.countP isDonePunchedInV3 = 1 ∧
      (v3Exec 60 [{ userId := "U1", name := "Alice", role := "student" }]
        [{ uid := "U1", t := 100 }, { uid := "U1", t := 100 }] []
        [0, 1]).phases.countP isDoneOutSuccessV3 ≤ 1 ∧
      (∀ (j : Nat) (resp : Response),
        (v3Exec 60 [{ userId := "U1", name := "Alice", role := "student" }]
          [{ uid := "U1", t := 100 }, { uid := "U1", t := 100 }] []
          [0, 1]).phases[j]? = some (V3Phase.done resp) →
        resp.code = 200 ∧ resp.punchIn = r.punchIn ∧
          (resp.punchOut.isSome → resp.punchOut = r.punchOut)) ∧
      ((∃ (j : Nat) (resp : Response),
          (v3Exec 60
            [{ userId := "U1", name := "Alice", role := "student" }]
            [{ uid := "U1", t := 100 }, { uid := "U1", t := 100 }] []
            [0, 1]).phases[j]? = some (V3Phase.done resp) ∧
          (isDoneOutSuccessV3 (V3Phase.done resp) ∨
           isDoneByOtherV3 (V3Phase.done resp))) →
        (v3Exec 60 [{ userId := "U1", name := "Alice", role := "student" }]
          [{ uid := "U1", t := 100 }, { uid := "U1", t := 100 }] []
          [0, 1]).phases.countP isDoneOutSuccessV3 = 1)) :=
  ⟨by decide, by decide,
   c2_conditional_primitives_total_order 60
     [{ userId := "U1", name := "Alice", role := "student" }]
     { userId := "U1", name := "Alice", role := "student" } "U1" 0
     [{ uid := "U1", t := 100 }, { uid := "U1", t := 100 }] [0, 1]
     (by decide) rfl (by decide) (by decide) (by decide)⟩

/-! ## V2 machine: case characterisation and invariant -/

theorem v2Step_needRead_closed (minI : Int) (users : List UserRec)
    (c : V2Call) (store : List AttRec) (idx : Nat) (r : AttRec)
    (hget : store[idx]? = some r) (hout : r.punchOut.isSome) :
    v2Step minI users c store (.needRead idx) =
      (store, .done (byOtherRespV2 r.punchIn r.punchOut)) := by
  simp [v2Step, readById, hget, hout]

theorem getElem?_isSome_set {α : Type} (l : List α) (i j : Nat) (b : α)
    (h : ∃ x, l[j]? = some x) : ∃ x, (l.set i b)[j]? = some x := by
  obtain ⟨x, hx⟩ := h
  by_cases hij : i = j
  · subst hij
    have hlt : i < l.length := by
      by_contra hc
      push_neg at hc
      rw [List.getElem?_eq_none hc] at hx
      exact absurd hx (by simp)
    exact ⟨b, List.getElem?_set_self hlt⟩
  · exact ⟨x, by rwa [List.getElem?_set_ne hij]⟩

theorem getElem?_isSome_append {α : Type} (l l' : List α) (j : Nat)
    (h : ∃ x, l[j]? = some x) : ∃ x, (l ++ l')[j]? = some x := by
  obtain ⟨x, hx⟩ := h
  have hlt : j < l.length := by
    by_contra hc
    push_neg at hc
    rw [List.getElem?_eq_none hc] at hx
    exact absurd hx (by simp)
  exact ⟨x, by rwa [List.getElem?_append_left hlt]⟩

/-- Setting an index whose old record is still open preserves every
closed record exactly. -/
theorem set_open_preserves_closed (l : List AttRec) (i : Nat) (a b : AttRec)
    (hget : l[i]? = some a) (hopen : a.punchOut = none)
    (j : Nat) (r : AttRec) (v : Nat)
    (hj : l[j]? = some r) (hv : r.punchOut = some v) :
    (l.set i b)[j]? = some r := by
  by_cases hij : i = j
  · subst hij
    rw [hget] at hj
    have : a = r := by simpa using hj
    subst this
    rw [hopen] at hv
    exact absurd hv (by simp)
  · rwa [List.getElem?_set_ne hij]

theorem append_preserves_get {α : Type} (l l' : List α) (j : Nat) (x : α)
    (hj : l[j]? = some x) : (l ++ l')[j]? = some x := by
  have hlt : j < l.length := by
    by_contra hc
    push_neg at hc
    rw [List.getElem?_eq_none hc] at hj
    exact absurd hj (by simp)
  rwa [List.getElem?_append_left hlt]

/-- Total case analysis of a V2 start step: it answers directly with a
non-500, non-punch-out `done`, or suspends in `needCreate`, or suspends
in `needCond` on an existing document. -/
theorem v2Step_start_cases (minI : Int) (users : List UserRec)
    (c : V2Call) (store : List AttRec) :
    (∃ resp, v2Step minI users c store .start = (store, .done resp) ∧
      resp ≠ fail500RespV2 ∧
      isDoneByOtherV2 (V2Phase.done resp) = false ∧
      isDoneOutSuccessV2 (V2Phase.done resp) = false) ∨
    (∃ user, v2Step minI users c store .start = (store, .needCreate user)) ∨
    (∃ idx rec, v2Step minI users c store .start = (store, .needCond idx) ∧
      store[idx]? = some rec) := by
  by_cases h1 : c.uid = ""
  · exact Or.inl ⟨{ code := 400, message := "Missing or invalid userId" },
      by simp [v2Step, h1], by decide, by decide, by decide⟩
  cases h2 : findUser users c.uid with
  | none =>
    exact Or.inl ⟨{ code := 404, message := "User not found" },
      by simp [v2Step, h1, h2], by decide, by decide, by decide⟩
  | some user =>
    cases h3 : findAttWithIdx store c.uid (dayOf c.tDate) with
    | none => exact Or.inr (Or.inl ⟨user, by simp [v2Step, h1, h2, h3]⟩)
    | some pr =>
      obtain ⟨idx, rec⟩ := pr
      have hgetrec : store[idx]? = some rec :=
        (findWithIdx_some _ store idx rec h3).1
      by_cases h4 : rec.punchIn.isSome ∧ rec.punchOut = none
      · by_cases h5 : (c.tNow : Int) -
            (rec.date * 86400 + rec.punchIn.getD 0) < minI
        · refine Or.inl ⟨tooSoonRespV2 rec.punchIn
              ((c.tNow : Int) - (rec.date * 86400 + rec.punchIn.getD 0)) minI,
              ?_, ?_, ?_, ?_⟩
          · simp [v2Step, h1, h2, h3, h4.1, h4.2, h5]
          · intro h
            have := congrArg Response.code h
            simp [tooSoonRespV2, fail500RespV2] at this
          · simp [isDoneByOtherV2, tooSoonRespV2]
          · simp [isDoneOutSuccessV2, tooSoonRespV2]
        · refine Or.inr (Or.inr ⟨idx, rec, ?_, hgetrec⟩)
          simp [v2Step, h1, h2, h3, h4.1, h4.2, h5]
      · by_cases h6 : rec.punchIn.isSome ∧ rec.punchOut.isSome
        · refine Or.inl ⟨alreadyOutRespV2 rec.punchIn rec.punchOut,
              ?_, ?_, ?_, ?_⟩
          · obtain ⟨v0, hv0⟩ := Option.isSome_iff_exists.mp h6.2
            simp [v2Step, h1, h2, h3, h6.1, hv0]
          · intro h
            have := congrArg Response.code h
            simp [alreadyOutRespV2, fail500RespV2] at this
          · simp [isDoneByOtherV2, alreadyOutRespV2]
          · simp [isDoneOutSuccessV2, alreadyOutRespV2]
        · refine Or.inl ⟨{ code := 400, message := "Invalid attendance state" },
            ?_, by decide, by decide, by decide⟩
          simp [v2Step, h1, h2, h3, h4, h6]

theorem v2Inv_init (calls : List V2Call) (store0 : List AttRec)
    (h0 : ∀ r ∈ store0, r.punchOut = none) :
    V2Inv calls ⟨store0, List.replicate calls.length .start⟩ := by
  refine ⟨by simp, ?_, ?_, ?_, ?_, ?_⟩
  · intro j idx hj
    have := List.eq_of_mem_replicate (List.getElem?_mem hj)
    simp_all
  · intro j idx hj
    have := List.eq_of_mem_replicate (List.getElem?_mem hj)
    simp_all
  · intro idx r v hg hv
    have hmem : r ∈ store0 := List.getElem?_mem hg
    rw [h0 r hmem] at hv
    exact absurd hv (by simp)
  · intro j resp hj _
    have := List.eq_of_mem_replicate (List.getElem?_mem hj)
    simp_all
  · intro j resp hj
    have := List.eq_of_mem_replicate (List.getElem?_mem hj)
    simp_all

theorem v2Step_preserves (minI : Int) (users : List UserRec)
    (calls : List V2Call) (store : List AttRec) (phases : List V2Phase)
    (hInv : V2Inv calls ⟨store, phases⟩)
    (i : Nat) (c : V2Call) (ph : V2Phase)
    (hci : calls[i]? = some c) (hpi : phases[i]? = some ph) :
    V2Inv calls
      ⟨(v2Step minI users c store ph).1,
       phases.set i (v2Step minI users c store ph).2⟩ := by
  obtain ⟨hlen, hcond, hreadc, hwin, hbyo, h500⟩ := hInv
  dsimp only at hlen hcond hreadc hwin hbyo h500
  have hilen : i < phases.length := by
    by_contra hcon
    push_neg at hcon
    rw [List.getElem?_eq_none hcon] at hpi
    exact absurd hpi (by simp)
  have hset_i : ∀ x : V2Phase, (phases.set i x)[i]? = some x :=
    fun x => List.getElem?_set_self hilen
  have hset_ne : ∀ (x : V2Phase) (j : Nat), j ≠ i →
      (phases.set i x)[j]? = phases[j]? :=
    fun x j hj => List.getElem?_set_ne (Ne.symm hj)
  cases ph with
  | done r0 =>
    show V2Inv calls ⟨store, phases.set i (V2Phase.done r0)⟩
    rw [set_self_of_getElem? phases i _ hpi]
    exact ⟨hlen, hcond, hreadc, hwin, hbyo, h500⟩
  | start =>
    have hkne : ∀ (k : Nat) (resp : Response),
        phases[k]? = some (V2Phase.done resp) → k ≠ i := by
      intro k resp hk hki
      subst hki
      rw [hpi] at hk
      exact absurd hk (by simp)
    rcases v2Step_start_cases minI users c store with
      ⟨resp, heq, hne500, hnby, hnout⟩ | ⟨user, heq⟩ | ⟨idx, rec, heq, hgetrec⟩
    · rw [heq]
      dsimp only
      refine ⟨by simpa using hlen, ?_, ?_, ?_, ?_, ?_⟩
      · intro j idx hj
        by_cases hji : j = i
        · subst hji; rw [hset_i] at hj; exact absurd hj (by simp)
        · rw [hset_ne _ j hji] at hj; exact hcond j idx hj
      · intro j idx hj
        by_cases hji : j = i
        · subst hji; rw [hset_i] at hj; exact absurd hj (by simp)
        · rw [hset_ne _ j hji] at hj; exact hreadc j idx hj
      · intro idx r v hg hv
        obtain ⟨k, p, hk⟩ := hwin idx r v hg hv
        exact ⟨k, p, by rw [hset_ne _ k (hkne k _ hk)]; exact hk⟩
      · intro j resp' hj hb
        by_cases hji : j = i
        · subst hji
          rw [hset_i] at hj
          have : resp' = resp := by simpa using hj.symm
          subst this
          rw [hnby] at hb
          exact absurd hb (by simp)
        · rw [hset_ne _ j hji] at hj
          obtain ⟨pin, v, hre, ⟨idx, r, hg, hv⟩, k, p, hk⟩ := hbyo j resp' hj hb
          exact ⟨pin, v, hre, ⟨idx, r, hg, hv⟩, k, p,
            by rw [hset_ne _ k (hkne k _ hk)]; exact hk⟩
      · intro j resp' hj
        by_cases hji : j = i
        · subst hji
          rw [hset_i] at hj
          have : resp' = resp := by simpa using hj.symm
          subst this
          exact hne500
        · rw [hset_ne _ j hji] at hj; exact h500 j resp' hj
    · rw [heq]
      dsimp only
      refine ⟨by simpa using hlen, ?_, ?_, ?_, ?_, ?_⟩
      · intro j idx hj
        by_cases hji : j = i
        · subst hji; rw [hset_i] at hj; exact absurd hj (by simp)
        · rw [hset_ne _ j hji] at hj; exact hcond j idx hj
      · intro j idx hj
        by_cases hji : j = i
        · subst hji; rw [hset_i] at hj; exact absurd hj (by simp)
        · rw [hset_ne _ j hji] at hj; exact hreadc j idx hj
      · intro idx r v hg hv
        obtain ⟨k, p, hk⟩ := hwin idx r v hg hv
        exact ⟨k, p, by rw [hset_ne _ k (hkne k _ hk)]; exact hk⟩
      · intro j resp' hj hb
        by_cases hji : j = i
        · subst hji; rw [hset_i] at hj; exact absurd hj (by simp)
        · rw [hset_ne _ j hji] at hj
          obtain ⟨pin, v, hre, ⟨idx, r, hg, hv⟩, k, p, hk⟩ := hbyo j resp' hj hb
          exact ⟨pin, v, hre, ⟨idx, r, hg, hv⟩, k, p,
            by rw [hset_ne _ k (hkne k _ hk)]; exact hk⟩
      · intro j resp' hj
        by_cases hji : j = i
        · subst hji; rw [hset_i] at hj; exact absurd hj (by simp)
        · rw [hset_ne _ j hji] at hj; exact h500 j resp' hj
    · rw [heq]
      dsimp only
      refine ⟨by simpa using hlen, ?_, ?_, ?_, ?_, ?_⟩
      · intro j idx' hj
        by_cases hji : j = i
        · subst hji
          rw [hset_i] at hj
          have : idx' = idx := by simpa using hj.symm
          subst this
          exact ⟨rec, hgetrec⟩
        · rw [hset_ne _ j hji] at hj; exact hcond j idx' hj
      · intro j idx' hj
        by_cases hji : j = i
        · subst hji; rw [hset_i] at hj; exact absurd hj (by simp)
        · rw [hset_ne _ j hji] at hj; exact hreadc j idx' hj
      · intro idx' r v hg hv
        obtain ⟨k, p, hk⟩ := hwin idx' r v hg hv
        exact ⟨k, p, by rw [hset_ne _ k (hkne k _ hk)]; exact hk⟩
      · intro j resp' hj hb
        by_cases hji : j = i
        · subst hji; rw [hset_i] at hj; exact absurd hj (by simp)
        · rw [hset_ne _ j hji] at hj
          obtain ⟨pin, v, hre, ⟨idx2, r, hg, hv⟩, k, p, hk⟩ := hbyo j resp' hj hb
          exact ⟨pin, v, hre, ⟨idx2, r, hg, hv⟩, k, p,
            by rw [hset_ne _ k (hkne k _ hk)]; exact hk⟩
      · intro j resp' hj
        by_cases hji : j = i
        · subst hji; rw [hset_i] at hj; exact absurd hj (by simp)
        · rw [hset_ne _ j hji] at hj; exact h500 j resp' hj
  | needCreate user =>
    have hkne : ∀ (k : Nat) (resp : Response),
        phases[k]? = some (V2Phase.done resp) → k ≠ i := by
      intro k resp hk hki
      subst hki
      rw [hpi] at hk
      exact absurd hk (by simp)
    show V2Inv calls
      ⟨store ++ [{ userId := c.uid, name := user.name, role := user.role,
                   date := dayOf c.tDate, punchIn := some (todOf c.tNow),
                   punchOut := none, recordedAt := c.tNow }],
       phases.set i (V2Phase.done (punchInRespV2 (todOf c.tNow)))⟩
    refine ⟨by simpa using hlen, ?_, ?_, ?_, ?_, ?_⟩
    · intro j idx hj
      by_cases hji : j = i
      · subst hji; rw [hset_i] at hj; exact absurd hj (by simp)
      · rw [hset_ne _ j hji] at hj
        exact getElem?_isSome_append _ _ idx (hcond j idx hj)
    · intro j idx hj
      by_cases hji : j = i
      · subst hji; rw [hset_i] at hj; exact absurd hj (by simp)
      · rw [hset_ne _ j hji] at hj
        obtain ⟨r, hg, ho⟩ := hreadc j idx hj
        exact ⟨r, append_preserves_get _ _ idx r hg, ho⟩
    · intro idx r v hg hv
      by_cases hlt : idx < store.length
      · rw [List.getElem?_append_left hlt] at hg
        obtain ⟨k, p, hk⟩ := hwin idx r v hg hv
        exact ⟨k, p, by rw [hset_ne _ k (hkne k _ hk)]; exact hk⟩
      · push_neg at hlt
        rw [List.getElem?_append_right hlt] at hg
        have hnone : r.punchOut = none := by
          rcases hd : idx - store.length with _ | n
          · rw [hd] at hg
            simp only [List.getElem?_cons_zero, Option.some.injEq] at hg
            rw [← hg]
          · rw [hd] at hg
            simp at hg
        rw [hnone] at hv
        exact absurd hv (by simp)
    · intro j resp' hj hb
      by_cases hji : j = i
      · subst hji
        rw [hset_i] at hj
        have : resp' = punchInRespV2 (todOf c.tNow) := by simpa using hj.symm
        subst this
        simp [isDoneByOtherV2, punchInRespV2] at hb
      · rw [hset_ne _ j hji] at hj
        obtain ⟨pin, v, hre, ⟨idx, r, hg, hv⟩, k, p, hk⟩ := hbyo j resp' hj hb
        exact ⟨pin, v, hre, ⟨idx, r, append_preserves_get _ _ idx r hg, hv⟩,
          k, p, by rw [hset_ne _ k (hkne k _ hk)]; exact hk⟩
    · intro j resp' hj
      by_cases hji : j = i
      · subst hji
        rw [hset_i] at hj
        have : resp' = punchInRespV2 (todOf c.tNow) := by simpa using hj.symm
        subst this
        intro h
        have := congrArg Response.code h
        simp [punchInRespV2, fail500RespV2] at this
      · rw [hset_ne _ j hji] at hj; exact h500 j resp' hj
  | needCond idx =>
    have hkne : ∀ (k : Nat) (resp : Response),
        phases[k]? = some (V2Phase.done resp) → k ≠ i := by
      intro k resp hk hki
      subst hki
      rw [hpi] at hk
      exact absurd hk (by simp)
    obtain ⟨r, hget⟩ := hcond i idx hpi
    cases hpo : r.punchOut with
    | none =>
      have hstep := v2Step_needCond_open minI users c store idx r hget hpo
      rw [hstep]
      dsimp only
      refine ⟨by simpa using hlen, ?_, ?_, ?_, ?_, ?_⟩
      · intro j idx' hj
        by_cases hji : j = i
        · subst hji; rw [hset_i] at hj; exact absurd hj (by simp)
        · rw [hset_ne _ j hji] at hj
          exact getElem?_isSome_set _ idx idx' _ (hcond j idx' hj)
      · intro j idx' hj
        by_cases hji : j = i
        · subst hji; rw [hset_i] at hj; exact absurd hj (by simp)
        · rw [hset_ne _ j hji] at hj
          obtain ⟨rr, hg, ho⟩ := hreadc j idx' hj
          obtain ⟨v0, hv0⟩ := Option.isSome_iff_exists.mp ho
          exact ⟨rr, set_open_preserves_closed store idx r _ hget hpo idx' rr
            v0 hg hv0, ho⟩
      · intro idx' rr v hg hv
        by_cases hii : idx' = idx
        · subst hii
          have hlt : idx' < store.length := by
            by_contra hc
            push_neg at hc
            rw [List.getElem?_eq_none hc] at hget
            exact absurd hget (by simp)
          rw [List.getElem?_set_self hlt] at hg
          have hrr : rr = { r with punchOut := some (todOf c.tNow) } := by
            simpa using hg.symm
          subst hrr
          simp at hv
          refine ⟨i, r.punchIn, ?_⟩
          rw [hset_i]
          rw [← hv]
        · rw [List.getElem?_set_ne (Ne.symm hii)] at hg
          obtain ⟨k, p, hk⟩ := hwin idx' rr v hg hv
          exact ⟨k, p, by rw [hset_ne _ k (hkne k _ hk)]; exact hk⟩
      · intro j resp' hj hb
        by_cases hji : j = i
        · subst hji
          rw [hset_i] at hj
          have : resp' = outSuccessRespV2 r.punchIn (some (todOf c.tNow)) := by
            simpa using hj.symm
          subst this
          simp [isDoneByOtherV2, outSuccessRespV2] at hb
        · rw [hset_ne _ j hji] at hj
          obtain ⟨pin, v, hre, ⟨idx2, rr, hg, hv⟩, k, p, hk⟩ := hbyo j resp' hj hb
          exact ⟨pin, v, hre,
            ⟨idx2, rr, set_open_preserves_closed store idx r _ hget hpo idx2
              rr v hg hv, hv⟩,
            k, p, by rw [hset_ne _ k (hkne k _ hk)]; exact hk⟩
      · intro j resp' hj
        by_cases hji : j = i
        · subst hji
          rw [hset_i] at hj
          have : resp' = outSuccessRespV2 r.punchIn (some (todOf c.tNow)) := by
            simpa using hj.symm
          subst this
          intro h
          have := congrArg Response.code h
          simp [outSuccessRespV2, fail500RespV2] at this
        · rw [hset_ne _ j hji] at hj; exact h500 j resp' hj
    | some v0 =>
      have hstep := v2Step_needCond_closed minI users c store idx r hget
        (by simp [hpo])
      rw [hstep]
      dsimp only
      refine ⟨by simpa using hlen, ?_, ?_, ?_, ?_, ?_⟩
      · intro j idx' hj
        by_cases hji : j = i
        · subst hji; rw [hset_i] at hj; exact absurd hj (by simp)
        · rw [hset_ne _ j hji] at hj; exact hcond j idx' hj
      · intro j idx' hj
        by_cases hji : j = i
        · subst hji
          rw [hset_i] at hj
          have : idx' = idx := by simpa using hj.symm
          subst this
          exact ⟨r, hget, by simp [hpo]⟩
        · rw [hset_ne _ j hji] at hj; exact hreadc j idx' hj
      · intro idx' rr v hg hv
        obtain ⟨k, p, hk⟩ := hwin idx' rr v hg hv
        exact ⟨k, p, by rw [hset_ne _ k (hkne k _ hk)]; exact hk⟩
      · intro j resp' hj hb
        by_cases hji : j = i
        · subst hji; rw [hset_i] at hj; exact absurd hj (by simp)
        · rw [hset_ne _ j hji] at hj
          obtain ⟨pin, v, hre, ⟨idx2, rr, hg, hv⟩, k, p, hk⟩ := hbyo j resp' hj hb
          exact ⟨pin, v, hre, ⟨idx2, rr, hg, hv⟩, k, p,
            by rw [hset_ne _ k (hkne k _ hk)]; exact hk⟩
      · intro j resp' hj
        by_cases hji : j = i
        · subst hji; rw [hset_i] at hj; exact absurd hj (by simp)
        · rw [hset_ne _ j hji] at hj; exact h500 j resp' hj
  | needRead idx =>
    have hkne : ∀ (k : Nat) (resp : Response),
        phases[k]? = some (V2Phase.done resp) → k ≠ i := by
      intro k resp hk hki
      subst hki
      rw [hpi] at hk
      exact absurd hk (by simp)
    obtain ⟨r, hget, hsome⟩ := hreadc i idx hpi
    obtain ⟨v, hv⟩ := Option.isSome_iff_exists.mp hsome
    have hstep := v2Step_needRead_closed minI users c store idx r hget hsome
    rw [hstep]
    dsimp only
    refine ⟨by simpa using hlen, ?_, ?_, ?_, ?_, ?_⟩
    · intro j idx' hj
      by_cases hji : j = i
      · subst hji; rw [hset_i] at hj; exact absurd hj (by simp)
      · rw [hset_ne _ j hji] at hj; exact hcond j idx' hj
    · intro j idx' hj
      by_cases hji : j = i
      · subst hji; rw [hset_i] at hj; exact absurd hj (by simp)
      · rw [hset_ne _ j hji] at hj; exact hreadc j idx' hj
    · intro idx' rr v' hg hv'
      obtain ⟨k, p, hk⟩ := hwin idx' rr v' hg hv'
      exact ⟨k, p, by rw [hset_ne _ k (hkne k _ hk)]; exact hk⟩
    · intro j resp' hj hb
      by_cases hji : j = i
      · subst hji
        rw [hset_i] at hj
        have hre : resp' = byOtherRespV2 r.punchIn r.punchOut := by
          simpa using hj.symm
        subst hre
        obtain ⟨k, p, hk⟩ := hwin idx r v hget hv
        exact ⟨r.punchIn, v, by rw [hv], ⟨idx, r, hget, hv⟩, k, p,
          by rw [hset_ne _ k (hkne k _ hk)]; exact hk⟩
      · rw [hset_ne _ j hji] at hj
        obtain ⟨pin, v', hre, ⟨idx2, rr, hg, hv'⟩, k, p, hk⟩ := hbyo j resp' hj hb
        exact ⟨pin, v', hre, ⟨idx2, rr, hg, hv'⟩, k, p,
          by rw [hset_ne _ k (hkne k _ hk)]; exact hk⟩
    · intro j resp' hj
      by_cases hji : j = i
      · subst hji
        rw [hset_i] at hj
        have : resp' = byOtherRespV2 r.punchIn r.punchOut := by
          simpa using hj.symm
        subst this
        intro h
        have := congrArg Response.code h
        simp [byOtherRespV2, fail500RespV2] at this
      · rw [hset_ne _ j hji] at hj; exact h500 j resp' hj

theorem v2Run_inv (minI : Int) (users : List UserRec)
    (calls : List V2Call) :
    ∀ (sched : List Nat) (s : MState V2Phase), V2Inv calls s →
    V2Inv calls (runSched
      (fun i store ph =>
        match calls[i]? with
        | some c => v2Step minI users c store ph
        | none => (store, ph)) sched s) := by
  intro sched
  induction sched with
  | nil => intro s h; exact h
  | cons i rest ih =>
    intro s hs
    rw [runSched]
    cases hpi : s.phases[i]? with
    | none => exact ih s hs
    | some ph =>
      cases hci : calls[i]? with
      | none =>
        have h1 : i < s.phases.length := by
          by_contra hcon
          push_neg at hcon
          rw [List.getElem?_eq_none hcon] at hpi
          exact absurd hpi (by simp)
        have h2 : calls.length ≤ i := List.getElem?_eq_none_iff.mp hci
        rw [hs.len] at h1
        omega
      | some c =>
        apply ih
        exact v2Step_preserves minI users calls s.store s.phases hs i c ph
          hci hpi

theorem v2Exec_inv (minI : Int) (users : List UserRec)
    (calls : List V2Call) (store0 : List AttRec) (sched : List Nat)
    (h0 : ∀ r ∈ store0, r.punchOut = none) :
    V2Inv calls (v2Exec minI users calls store0 sched) :=
  v2Run_inv minI users calls sched
    ⟨store0, List.replicate calls.length .start⟩
    (v2Inv_init calls store0 h0)

/-! ## Claim C4 -/

/-- C4: in the V2 handler, when a call's conditional punch-out update
does not apply because a concurrent call already set the punch-out, the
loser re-reads the record and answers 200 "Punched Out (by another
request)" carrying the persisted punch-out time written by the unique
winning call; no call ever surfaces the 500 "Could not set punchOut"
fallback.  Holds for every interleaving of arbitrary calls from a store
none of whose records had a punch-out yet. -/
theorem c4_race_loser_reports_winner (minI : Int) (users : List UserRec)
    (calls : List V2Call) (store0 : List AttRec) (sched : List Nat)
    (h0 : ∀ r ∈ store0, r.punchOut = none) :
    (∀ (j : Nat) (resp : Response),
      (v2Exec minI users calls store0 sched).phases[j]? =
          some (V2Phase.done resp) →
      resp ≠ fail500RespV2) ∧
    (∀ (j : Nat) (resp : Response),
      (v2Exec minI users calls store0 sched).phases[j]? =
          some (V2Phase.done resp) →
      isDoneByOtherV2 (V2Phase.done resp) = true →
      ∃ (pin : Option Nat) (v : Nat), resp = byOtherRespV2 pin (some v) ∧
        (∃ (idx : Nat) (r : AttRec),
          (v2Exec minI users calls store0 sched).store[idx]? = some r ∧
          r.punchOut = some v) ∧
        (∃ (k : Nat) (p : Option Nat),
          (v2Exec minI users calls store0 sched).phases[k]? =
            some (V2Phase.done (outSuccessRespV2 p (some v))))) := by
  have hInv := v2Exec_inv minI users calls store0 sched h0
  exact ⟨hInv.no500, hInv.byOtherOk⟩

/-- Witness for C4: two calls race to punch out an existing open
record; the loser answers "Punched Out (by another request)" with the
winner's persisted time, and nobody answers 500. -/
theorem c4_race_loser_reports_winner_witness :
    (∀ r ∈ ([{ userId := "U1", name := "Alice", role := "student",
               date := 0, punchIn := some 100, punchOut := none,
               recordedAt := 100 }] : List AttRec), r.punchOut = none) ∧
    (∀ (j : Nat) (resp : Response),
      (v2Exec 60 [{ userId := "U1", name := "Alice", role := "student" }]
        [{ uid := "U1", tDate := 200, tNow := 200 },
         { uid := "U1", tDate := 200, tNow := 200 }]
        [{ userId := "U1", name := "Alice", role := "student", date := 0,
           punchIn := some 100, punchOut := none, recordedAt := 100 }]
        [0, 1, 0, 1, 1]).phases[j]? = some (V2Phase.done resp) →
      resp ≠ fail500RespV2) ∧
    (v2Exec 60 [{ userId := "U1", name := "Alice", role := "student" }]
      [{ uid := "U1", tDate := 200, tNow := 200 },
       { uid := "U1", tDate := 200, tNow := 200 }]
      [{ userId := "U1", name := "Alice", role := "student", date := 0,
         punchIn := some 100, punchOut := none, recordedAt := 100 }]
      [0, 1, 0, 1, 1]).phases =
      [V2Phase.done (outSuccessRespV2 (some 100) (some 200)),
       V2Phase.done (byOtherRespV2 (some 100) (some 200))] :=
  ⟨by decide,
   (c4_race_loser_reports_winner 60
     [{ userId := "U1", name := "Alice", role := "student" }]
     [{ uid := "U1", tDate := 200, tNow := 200 },
      { uid := "U1", tDate := 200, tNow := 200 }]
     [{ userId := "U1", name := "Alice", role := "student", date := 0,
        punchIn := some 100, punchOut := none, recordedAt := 100 }]
     [0, 1, 0, 1, 1] (by decide)).1,
   by decide⟩
